import Mathlib

/-!
# Verification of the ffmpeg-frame-encoder streaming pipeline

Shallow embedding of the repository's core (src/sink.rs, src/encoder.rs):
the ingestion collector, the encode worker's cooperative scheduler
(`read_collector_to_end`), the frame dispatcher (`handle_frame`), the four
stage operations, and the end-of-stream flush handshake.

Modelling conventions:
* The external ffmpeg backend is modelled through the primitive operations
  the worker consumes (filter push/pull, encoder submit/retrieve/send_eof,
  interleaved packet write, trailer write).  A filter graph buffers the
  frames pushed into it (FIFO); an encoder buffers submitted frames and
  yields one packet per frame; `send_eof` succeeds once and reports `Eof`
  afterwards, matching the avcodec contract.  An `IterOracle` of booleans
  lets any of these calls additionally report "temporarily unavailable"
  (errno 11) in a given iteration, so the scheduler's retry logic is
  exercised under arbitrary backend readiness.
* Media payloads travelling through filter graphs and encoders are
  abstracted to their presentation timestamp (the only attribute the
  scheduler inspects); the byte-level construction of a video frame from a
  `VideoPlane` is modelled separately (`frame_from_video_plane`).
* Machine integers (`u64` frame numbers, `usize` lengths, `i64` pts) are
  modelled as `Nat`/`Int`; none of the verified paths can overflow them.
* Rust `panic!` and out-of-bounds slice indexing are modelled explicitly
  (`HandleResult.panicked`, `StageStep.panicStep`, `Option` results).
* Log writes always succeed (channel sends are modelled as list appends),
  and `FfmpegContext::new` is modelled as succeeding (its failure path
  merely logs and leaves the context unset).
-/

/-! ## Static stream parameters (encoder.rs: `VideoArgs`, `AudioArgs`, `OutputArgs`) -/

structure VideoArgs where
  pixel_format : Nat
  fps : Nat
  width : Nat
  height : Nat
  deriving DecidableEq, Repr, Inhabited

structure AudioArgs where
  sample_rate : Nat
  deriving DecidableEq, Repr, Inhabited

inductive OutputArgs where
  | audioVideo (a : AudioArgs) (v : VideoArgs)
  | video (v : VideoArgs)
  | audio (a : AudioArgs)
  deriving DecidableEq, Repr

def OutputArgs.hasVideo : OutputArgs → Bool
  | .audio _ => false
  | _ => true

def OutputArgs.hasAudio : OutputArgs → Bool
  | .video _ => false
  | _ => true

/-! ## Frames crossing the producer/worker boundary (sink.rs) -/

structure VideoPlane where
  data : List Nat
  width : Nat
  height : Nat
  pitch : Nat
  deriving DecidableEq, Repr

structure AudioPlane where
  data : List (Int × Int)
  deriving DecidableEq, Repr

inductive FrameData where
  | video (v : VideoPlane)
  | audio (a : AudioPlane)
  | configure (args : OutputArgs)
  | endStream
  deriving DecidableEq, Repr

structure Frame where
  data : FrameData
  frame_number : Nat
  deriving DecidableEq, Repr

/-! ## The ingestion collector (sink.rs: `RetroAVCollector`)

The mpsc channel is modelled by the list `sent` of frames placed on it, in
order. -/

structure RetroAVCollector where
  sent : List Frame
  audio_buf : List (Int × Int)
  deriving DecidableEq, Repr

def RetroAVCollector.new : RetroAVCollector := ⟨[], []⟩

def RetroAVCollector.configure (c : RetroAVCollector) (output_args : OutputArgs)
    (frame_number : Nat) : RetroAVCollector :=
  { c with sent := c.sent ++ [⟨FrameData.configure output_args, frame_number⟩] }

def RetroAVCollector.on_video_refresh (c : RetroAVCollector) (data : List Nat)
    (width height pitch : Nat) (frame_number : Nat) : RetroAVCollector :=
  { c with sent := c.sent ++ [⟨FrameData.video ⟨data, width, height, pitch⟩, frame_number⟩] }

def RetroAVCollector.on_audio_sample (c : RetroAVCollector) (left right : Int) :
    RetroAVCollector :=
  { c with audio_buf := c.audio_buf ++ [(left, right)] }

/-- `iter().step_by(2)`: every second element, starting from the first. -/
def stepBy2 : List Int → List Int
  | [] => []
  | [x] => [x]
  | x :: _ :: rest => x :: stepBy2 rest

/-- `Iterator::zip(left_iter, right_iter)` where `left_iter` walks the even
indices and `right_iter` the odd indices of the interleaved buffer. -/
def deinterleavePairs (stereo_pcm : List Int) : List (Int × Int) :=
  (stepBy2 stereo_pcm).zip (stepBy2 (stereo_pcm.drop 1))

def RetroAVCollector.send_audio_plane_if_ready (c : RetroAVCollector)
    (frame_number : Nat) : RetroAVCollector :=
  let data := c.audio_buf
  { c with
    audio_buf := [],
    sent := c.sent ++ [⟨FrameData.audio ⟨data⟩, frame_number⟩] }

def RetroAVCollector.on_audio_sample_batch (c : RetroAVCollector)
    (stereo_pcm : List Int) (frame_number : Nat) : RetroAVCollector × Nat :=
  let c := { c with audio_buf := c.audio_buf ++ deinterleavePairs stereo_pcm }
  (c.send_audio_plane_if_ready frame_number, stereo_pcm.length)

def RetroAVCollector.endFrames (c : RetroAVCollector) (frame_number : Nat) :
    RetroAVCollector :=
  { c with sent := c.sent ++ [⟨FrameData.endStream, frame_number⟩] }

/-! ## Row-wise copy of a video plane (encoder.rs: `frame_from_video_plane`)

The destination buffer of an ffmpeg video frame for one plane has
`stride * height` bytes, where the stride is chosen by the backend.  Rust
slice indexing panics when out of bounds; the model returns `none` in that
case. -/

/-- Replace `dst[start .. start + src.length)` by `src`
(`copy_from_slice` on a subslice, bounds already checked by the caller). -/
def setRange (dst : List Nat) (start : Nat) (src : List Nat) : List Nat :=
  dst.take start ++ src ++ dst.drop (start + src.length)

/-- One iteration of the row-copy loop:
`vframe_plane[ffbegin..ffbegin+min].copy_from_slice(&vplane.data[lrbegin..lrbegin+min])`.
`none` models the panic on an out-of-range slice index. -/
def copyRow (src : List Nat) (pitch stride y : Nat) (dst : List Nat) :
    Option (List Nat) :=
  let ffbegin := y * stride
  let lrbegin := y * pitch
  let m := Nat.min stride pitch
  if ffbegin + m ≤ dst.length ∧ lrbegin + m ≤ src.length then
    some (setRange dst ffbegin ((src.drop lrbegin).take m))
  else
    none

def frame_from_video_plane (vplane : VideoPlane) (stride : Nat) :
    Option (List Nat) :=
  let vframe_plane : List Nat := List.replicate (stride * vplane.height) 0
  if vplane.data.length = vframe_plane.length ∧ vplane.pitch = stride then
    some vplane.data
  else
    (List.range vplane.height).foldlM
      (fun dst y => copyRow vplane.data vplane.pitch stride y dst) vframe_plane

/-! ## The backend session (encoder.rs: `FfmpegContext` and friends) -/

structure Rational where
  num : Int
  den : Int
  deriving DecidableEq, Repr

inductive StreamKind where
  | video
  | audio
  deriving DecidableEq, Repr

structure OStream where
  kind : StreamKind
  time_base : Rational
  deriving DecidableEq, Repr

structure Packet where
  stream : Nat
  pts : Int
  deriving DecidableEq, Repr

structure OutputContext where
  streams : List OStream
  header_written : Bool
  written : List Packet
  trailer_writes : Nat
  deriving DecidableEq, Repr

def OutputContext.stream (o : OutputContext) (i : Nat) : Option OStream :=
  o.streams[i]?

def OutputContext.write_interleaved (o : OutputContext) (p : Packet) :
    OutputContext :=
  { o with written := o.written ++ [p] }

def OutputContext.write_trailer (o : OutputContext) : OutputContext :=
  { o with trailer_writes := o.trailer_writes + 1 }

/-- `av_rescale_rnd` with the default `AV_ROUND_NEAR_INF` rounding
(nearest, halfway cases away from zero). -/
def avRescaleRnd (a b c : Int) : Int :=
  let p := a * b
  if 0 ≤ p then (p + c / 2) / c else -(((-p) + c / 2) / c)

def Packet.rescale_ts (p : Packet) (bq cq : Rational) : Packet :=
  { p with pts := avRescaleRnd p.pts (bq.num * cq.den) (bq.den * cq.num) }

/-- A filter graph buffers the frames pushed into its `in` source, each
abstracted to its pts; the `out` sink yields them in FIFO order. -/
structure FilterGraph where
  queue : List Int
  deriving DecidableEq, Repr

def FilterGraph.push (g : FilterGraph) (pts : Int) : FilterGraph :=
  ⟨g.queue ++ [pts]⟩

/-- Pull one filtered frame; `none` is errno 11 (either the backend is
momentarily not ready, or the graph holds no frame — the worker never sends
end-of-stream to a filter input, so a graph never reports `Eof`). -/
def FilterGraph.pull (g : FilterGraph) (block : Bool) :
    Option (Int × FilterGraph) :=
  if block then none else
  match g.queue with
  | [] => none
  | pts :: rest => some (pts, ⟨rest⟩)

/-- A backend encoder: frames submitted and not yet retrieved as packets,
plus whether end-of-stream has been signalled to it. -/
structure BackendEncoder where
  in_queue : List Int
  eof_signaled : Bool
  deriving DecidableEq, Repr

def BackendEncoder.send_frame (e : BackendEncoder) (pts : Int) : BackendEncoder :=
  { e with in_queue := e.in_queue ++ [pts] }

inductive ReceiveResult where
  | packet (pts : Int) (e : BackendEncoder)
  | again
  | eofRecv
  deriving DecidableEq, Repr

/-- `receive_packet`: a packet per submitted frame, in order; errno 11 while
more input is needed (or the backend is momentarily not ready); `Eof` once
drained after end-of-stream was signalled. -/
def BackendEncoder.receive_packet (e : BackendEncoder) (block : Bool) :
    ReceiveResult :=
  match e.in_queue with
  | pts :: rest => if block then .again else .packet pts ⟨rest, e.eof_signaled⟩
  | [] => if e.eof_signaled then .eofRecv else .again

inductive SendEofResult where
  | okSend
  | againSend
  | eofSend
  deriving DecidableEq, Repr

/-- `send_eof`: `Eof` if already signalled (avcodec contract), errno 11 if
the backend is momentarily not ready, otherwise success. -/
def BackendEncoder.send_eof (e : BackendEncoder) (block : Bool) :
    SendEofResult × BackendEncoder :=
  if e.eof_signaled then (.eofSend, e)
  else if block then (.againSend, e)
  else (.okSend, { e with eof_signaled := true })

structure FfmpegVideoContext where
  encoder : BackendEncoder
  filter : FilterGraph
  args : VideoArgs
  deriving DecidableEq, Repr

structure FfmpegAudioContext where
  encoder : BackendEncoder
  filter : FilterGraph
  args : AudioArgs
  deriving DecidableEq, Repr

structure FfmpegContext where
  octx : OutputContext
  video : Option FfmpegVideoContext
  audio : Option FfmpegAudioContext
  deriving DecidableEq, Repr

/-- `output.set_time_base(Rational::new(1, 60))` on the video stream. -/
def videoStreamTimeBase : Rational := ⟨1, 60⟩

/-- The code never sets a time base on the audio stream; a fresh backend
stream carries the default `0/1`. -/
def audioDefaultTimeBase : Rational := ⟨0, 1⟩

/-- `FfmpegContext::new`: build the video sub-context for `Video`/`AudioVideo`,
the audio sub-context for `Audio`/`AudioVideo`; streams are added to the
output context in that order (video first when present), then the header is
written.  Backend failures are modelled as absent. -/
def FfmpegContext.new (output_args : OutputArgs) : FfmpegContext :=
  let video_context : Option FfmpegVideoContext :=
    match output_args with
    | .video video_args | .audioVideo _ video_args =>
      some { encoder := ⟨[], false⟩, filter := ⟨[]⟩, args := video_args }
    | .audio _ => none
  let audio_context : Option FfmpegAudioContext :=
    match output_args with
    | .audio audio_args | .audioVideo audio_args _ =>
      some { encoder := ⟨[], false⟩, filter := ⟨[]⟩, args := audio_args }
    | .video _ => none
  let streams : List OStream :=
    (match video_context with
     | some _ => [⟨StreamKind.video, videoStreamTimeBase⟩]
     | none => []) ++
    (match audio_context with
     | some _ => [⟨StreamKind.audio, audioDefaultTimeBase⟩]
     | none => [])
  { octx := { streams := streams, header_written := true, written := [], trailer_writes := 0 },
    video := video_context,
    audio := audio_context }

/-! ## The worker state and frame dispatcher (encoder.rs: `CollectedAVFfmpegEncoder`) -/

inductive LogSources where
  | sink
  | filter
  | encoder
  deriving DecidableEq, Repr

/-- The structured content of each `write_log` message. -/
inductive LogMsg where
  | videoFrame (n : Nat)
  | audioFrame (n : Nat)
  | configureFrame (n : Nat)
  | rejectedConfigure (n : Nat)
  | stopProcessing (n : Nat)
  | filteredVideo (pts : Int)
  | filteredAudio (pts : Int)
  | videoPacket (pts : Int)
  | audioPacket (pts : Int)
  deriving DecidableEq, Repr

structure CollectedAVFfmpegEncoder where
  receiver : List Frame
  ffmpeg_context : Option FfmpegContext
  is_ending : Bool
  log : List (LogSources × LogMsg)
  deriving DecidableEq, Repr, Inhabited

inductive HandleResult where
  | ok (s : CollectedAVFfmpegEncoder)
  | panicked
  deriving DecidableEq, Repr

/-- `handle_frame`: dispatch one dequeued frame.  Media frames are stamped
with their sequence number as pts and pushed into the matching filter graph;
a first `Configure` builds the session; a later `Configure` is rejected with
a logged message; `End` sets the ending flag; every remaining combination
hits the `panic!("unhandled case")` arm. -/
def handle_frame (s : CollectedAVFfmpegEncoder) (frame : Frame) : HandleResult :=
  let frame_number := frame.frame_number
  match s.ffmpeg_context, frame.data with
  | some ctx, FrameData.video _vplane =>
    match ctx.video with
    | some video_context =>
      HandleResult.ok { s with
        ffmpeg_context := some { ctx with
          video := some { video_context with
            filter := video_context.filter.push (frame_number : Int) } },
        log := s.log ++ [(LogSources.sink, LogMsg.videoFrame frame_number)] }
    | none => HandleResult.panicked
  | some ctx, FrameData.audio _aplane =>
    match ctx.audio with
    | some audio_context =>
      HandleResult.ok { s with
        ffmpeg_context := some { ctx with
          audio := some { audio_context with
            filter := audio_context.filter.push (frame_number : Int) } },
        log := s.log ++ [(LogSources.sink, LogMsg.audioFrame frame_number)] }
    | none => HandleResult.panicked
  | none, FrameData.configure output_args =>
    HandleResult.ok { s with
      ffmpeg_context := some (FfmpegContext.new output_args),
      log := s.log ++ [(LogSources.sink, LogMsg.configureFrame frame_number)] }
  | some _, FrameData.configure _ =>
    HandleResult.ok { s with
      log := s.log ++ [(LogSources.sink, LogMsg.rejectedConfigure frame_number)] }
  | some _, FrameData.endStream =>
    HandleResult.ok { s with
      is_ending := true,
      log := s.log ++ [(LogSources.sink, LogMsg.stopProcessing frame_number)] }
  | none, _ => HandleResult.panicked

/-! ## The four stage operations -/

/-- Per-iteration backend readiness: a `true` component makes the
corresponding backend call report errno 11 this iteration. -/
structure IterOracle where
  v_pull_block : Bool
  a_pull_block : Bool
  v_recv_block : Bool
  a_recv_block : Bool
  v_eof_block : Bool
  a_eof_block : Bool
  deriving DecidableEq, Repr

def idealOracle : IterOracle := ⟨false, false, false, false, false, false⟩

def idealRun : Nat → IterOracle := fun _ => idealOracle

inductive FfErr where
  | again
  | eofErr
  deriving DecidableEq, Repr

inductive StageStep where
  | success (s : CollectedAVFfmpegEncoder)
  | err (e : FfErr)
  | panicStep
  deriving DecidableEq, Repr

def get_filtered_video_frame_and_start_encode (o : IterOracle)
    (s : CollectedAVFfmpegEncoder) : StageStep :=
  match s.ffmpeg_context with
  | some ctx =>
    match ctx.video with
    | some video_context =>
      match video_context.filter.pull o.v_pull_block with
      | some (pts, filter') =>
        StageStep.success { s with
          ffmpeg_context := some { ctx with
            video := some { video_context with
              filter := filter',
              encoder := video_context.encoder.send_frame pts } },
          log := s.log ++ [(LogSources.filter, LogMsg.filteredVideo pts)] }
      | none => StageStep.err .again
    | none => StageStep.success s
  | none => StageStep.panicStep

def get_filtered_audio_frame_and_start_encode (o : IterOracle)
    (s : CollectedAVFfmpegEncoder) : StageStep :=
  match s.ffmpeg_context with
  | some ctx =>
    match ctx.audio with
    | some audio_context =>
      match audio_context.filter.pull o.a_pull_block with
      | some (pts, filter') =>
        StageStep.success { s with
          ffmpeg_context := some { ctx with
            audio := some { audio_context with
              filter := filter',
              encoder := audio_context.encoder.send_frame pts } },
          log := s.log ++ [(LogSources.filter, LogMsg.filteredAudio pts)] }
      | none => StageStep.err .again
    | none => StageStep.success s
  | none => StageStep.panicStep

def write_encoded_video_packet (o : IterOracle)
    (s : CollectedAVFfmpegEncoder) : StageStep :=
  match s.ffmpeg_context with
  | some ctx =>
    match ctx.video with
    | some video_context =>
      match video_context.encoder.receive_packet o.v_recv_block with
      | .packet pts enc' =>
        let encoded_packet : Packet := { stream := 0, pts := pts }
        match ctx.octx.stream 0 with
        | some st0 =>
          let encoded_packet :=
            encoded_packet.rescale_ts ⟨1, (video_context.args.fps : Int)⟩ st0.time_base
          StageStep.success { s with
            ffmpeg_context := some { ctx with
              video := some { video_context with encoder := enc' },
              octx := ctx.octx.write_interleaved encoded_packet },
            log := s.log ++ [(LogSources.encoder, LogMsg.videoPacket pts)] }
        | none => StageStep.panicStep
      | .again => StageStep.err .again
      | .eofRecv => StageStep.err .eofErr
    | none => StageStep.success s
  | none => StageStep.panicStep

def write_encoded_audio_packet (o : IterOracle)
    (s : CollectedAVFfmpegEncoder) : StageStep :=
  match s.ffmpeg_context with
  | some ctx =>
    match ctx.audio with
    | some audio_context =>
      match audio_context.encoder.receive_packet o.a_recv_block with
      | .packet pts enc' =>
        let encoded_packet : Packet := { stream := 1, pts := pts }
        StageStep.success { s with
          ffmpeg_context := some { ctx with
            audio := some { audio_context with encoder := enc' },
            octx := ctx.octx.write_interleaved encoded_packet },
          log := s.log ++ [(LogSources.encoder, LogMsg.audioPacket pts)] }
      | .again => StageStep.err .again
      | .eofRecv => StageStep.err .eofErr
    | none => StageStep.success s
  | none => StageStep.panicStep

/-! ## The stage table and the priority-order evaluation loop -/

/-- Slot 0 (and 2) are bound exactly when the operation table has been set
and the session has a video sub-context. -/
def videoBound (bound : Bool) (s : CollectedAVFfmpegEncoder) : Bool :=
  bound && (match s.ffmpeg_context with
            | some ctx => ctx.video.isSome
            | none => false)

/-- Slot 1 (and 3) are bound exactly when the operation table has been set
and the session has an audio sub-context. -/
def audioBound (bound : Bool) (s : CollectedAVFfmpegEncoder) : Bool :=
  bound && (match s.ffmpeg_context with
            | some ctx => ctx.audio.isSome
            | none => false)

/-- Stage slot 0: video filter-pull, or its placeholder (errno 11) when
unbound. -/
def step0 (bound : Bool) (o : IterOracle) (s : CollectedAVFfmpegEncoder) : StageStep :=
  if videoBound bound s then get_filtered_video_frame_and_start_encode o s
  else StageStep.err .again

/-- Stage slot 1: audio filter-pull, or its placeholder (errno 11) when
unbound. -/
def step1 (bound : Bool) (o : IterOracle) (s : CollectedAVFfmpegEncoder) : StageStep :=
  if audioBound bound s then get_filtered_audio_frame_and_start_encode o s
  else StageStep.err .again

/-- Stage slot 2: video encode-write, or its placeholder (`Eof`) when
unbound. -/
def step2 (bound : Bool) (o : IterOracle) (s : CollectedAVFfmpegEncoder) : StageStep :=
  if videoBound bound s then write_encoded_video_packet o s
  else StageStep.err .eofErr

/-- Stage slot 3: audio encode-write, or its placeholder (`Eof`) when
unbound. -/
def step3 (bound : Bool) (o : IterOracle) (s : CollectedAVFfmpegEncoder) : StageStep :=
  if audioBound bound s then write_encoded_audio_packet o s
  else StageStep.err .eofErr

/-- The `operation_results` array of one iteration: `none` in a slot means
the stage either succeeded there or was skipped by the break after an
earlier success. -/
structure OperationResults where
  r0 : Option FfErr
  r1 : Option FfErr
  r2 : Option FfErr
  r3 : Option FfErr
  deriving DecidableEq, Repr

/-- The stage loop: evaluate the four slots in fixed order, breaking at the
first success; a non-success outcome is recorded in `operation_results`.
`none` models a fatal error / panic aborting the worker. -/
def runStages (bound : Bool) (o : IterOracle) (s : CollectedAVFfmpegEncoder) :
    Option (OperationResults × CollectedAVFfmpegEncoder) :=
  match step0 bound o s with
  | .panicStep => none
  | .success s' => some (⟨none, none, none, none⟩, s')
  | .err e0 =>
    match step1 bound o s with
    | .panicStep => none
    | .success s' => some (⟨some e0, none, none, none⟩, s')
    | .err e1 =>
      match step2 bound o s with
      | .panicStep => none
      | .success s' => some (⟨some e0, some e1, none, none⟩, s')
      | .err e2 =>
        match step3 bound o s with
        | .panicStep => none
        | .success s' => some (⟨some e0, some e1, some e2, none⟩, s')
        | .err e3 => some (⟨some e0, some e1, some e2, some e3⟩, s)

/-! ## The flush handshake -/

/-- Send one end-of-stream to each active encoder, video first then audio,
mirroring the two `if let` blocks; the boolean is the `succeeded` flag. -/
def send_eof_to_encoders (o : IterOracle) (s : CollectedAVFfmpegEncoder) :
    CollectedAVFfmpegEncoder × Bool × List (StreamKind × SendEofResult) :=
  let videoPart : CollectedAVFfmpegEncoder × Bool × List (StreamKind × SendEofResult) :=
    match s.ffmpeg_context with
    | some ctx =>
      match ctx.video with
      | some video_context =>
        match video_context.encoder.send_eof o.v_eof_block with
        | (SendEofResult.againSend, _) => (s, false, [(StreamKind.video, SendEofResult.againSend)])
        | (SendEofResult.eofSend, _) => (s, true, [(StreamKind.video, SendEofResult.eofSend)])
        | (SendEofResult.okSend, enc') =>
          ({ s with ffmpeg_context := some { ctx with
              video := some { video_context with encoder := enc' } } },
           true, [(StreamKind.video, SendEofResult.okSend)])
      | none => (s, true, [])
    | none => (s, true, [])
  let s1 := videoPart.1
  let audioPart : CollectedAVFfmpegEncoder × Bool × List (StreamKind × SendEofResult) :=
    match s1.ffmpeg_context with
    | some ctx =>
      match ctx.audio with
      | some audio_context =>
        match audio_context.encoder.send_eof o.a_eof_block with
        | (SendEofResult.againSend, _) => (s1, false, [(StreamKind.audio, SendEofResult.againSend)])
        | (SendEofResult.eofSend, _) => (s1, true, [(StreamKind.audio, SendEofResult.eofSend)])
        | (SendEofResult.okSend, enc') =>
          ({ s1 with ffmpeg_context := some { ctx with
              audio := some { audio_context with encoder := enc' } } },
           true, [(StreamKind.audio, SendEofResult.okSend)])
      | none => (s1, true, [])
    | none => (s1, true, [])
  (audioPart.1, videoPart.2.1 && audioPart.2.1, videoPart.2.2 ++ audioPart.2.2)

structure FlushOut where
  state : CollectedAVFfmpegEncoder
  eof_was_sent : Bool
  exit_loop : Bool
  trailer_written : Bool
  eof_sends : List (StreamKind × SendEofResult)
  deriving DecidableEq, Repr

/-- The end-condition inspection run when the ending flag is set and the
queue is empty: `(11, 11, Eof, Eof)` writes the trailer and exits the loop;
`(11, 11, _, _)` sends end-of-stream to the active encoders unless that
already succeeded; anything else does nothing. -/
def flushCheck (o : IterOracle) (r : OperationResults) (eof_was_sent : Bool)
    (s : CollectedAVFfmpegEncoder) : FlushOut :=
  match r.r0, r.r1, r.r2, r.r3 with
  | some .again, some .again, some .eofErr, some .eofErr =>
    match s.ffmpeg_context with
    | some ctx =>
      ⟨{ s with ffmpeg_context := some { ctx with octx := ctx.octx.write_trailer } },
       eof_was_sent, true, true, []⟩
    | none => ⟨s, eof_was_sent, true, false, []⟩
  | some .again, some .again, _, _ =>
    if eof_was_sent then ⟨s, eof_was_sent, false, false, []⟩
    else
      let out := send_eof_to_encoders o s
      ⟨out.1, if out.2.1 then true else eof_was_sent, false, false, out.2.2⟩
  | _, _, _, _ => ⟨s, eof_was_sent, false, false, []⟩

/-! ## One iteration of the worker loop, and the loop itself -/

structure LoopState where
  enc : CollectedAVFfmpegEncoder
  ops_bound : Bool
  eof_was_sent_to_encoders : Bool
  deriving DecidableEq, Repr, Inhabited

/-- Observable events of one iteration. -/
structure IterEvents where
  draining : Bool
  queue_empty : Bool
  results : OperationResults
  trailer_written : Bool
  session_built : Bool
  eof_sends : List (StreamKind × SendEofResult)
  deriving DecidableEq, Repr

inductive IterResult where
  | cont (s : LoopState) (ev : IterEvents)
  | exit (s : LoopState) (ev : IterEvents)
  | abort
  deriving DecidableEq, Repr

/-- One iteration of `read_collector_to_end`'s loop: bind the operation
table once a context exists, non-blocking dequeue and dispatch of at most
one frame, the stage loop, then the flush check. -/
def iterate (o : IterOracle) (s : LoopState) : IterResult :=
  let ops_bound := s.ops_bound || s.enc.ffmpeg_context.isSome
  let recvStep : HandleResult :=
    match s.enc.receiver with
    | [] => HandleResult.ok s.enc
    | f :: rest => handle_frame { s.enc with receiver := rest } f
  match recvStep with
  | .panicked => IterResult.abort
  | .ok enc1 =>
    let session_built := s.enc.ffmpeg_context.isNone && enc1.ffmpeg_context.isSome
    match runStages ops_bound o enc1 with
    | none => IterResult.abort
    | some (r, enc2) =>
      if enc2.is_ending && enc2.receiver.isEmpty then
        let fo := flushCheck o r s.eof_was_sent_to_encoders enc2
        let ev : IterEvents :=
          ⟨enc2.is_ending, enc2.receiver.isEmpty, r, fo.trailer_written,
           session_built, fo.eof_sends⟩
        if fo.exit_loop then IterResult.exit ⟨fo.state, ops_bound, fo.eof_was_sent⟩ ev
        else IterResult.cont ⟨fo.state, ops_bound, fo.eof_was_sent⟩ ev
      else
        IterResult.cont ⟨enc2, ops_bound, s.eof_was_sent_to_encoders⟩
          ⟨enc2.is_ending, enc2.receiver.isEmpty, r, false, session_built, []⟩

inductive RunResult where
  | finished (s : LoopState)
  | aborted
  | outOfFuel (s : LoopState)
  deriving DecidableEq, Repr, Inhabited

/-- Run the worker loop for at most `fuel` iterations, from iteration index
`k`, collecting each iteration's events. -/
def runFrom (ora : Nat → IterOracle) : Nat → Nat → LoopState → RunResult × List IterEvents
  | _, 0, s => (.outOfFuel s, [])
  | k, fuel + 1, s =>
    match iterate (ora k) s with
    | .abort => (.aborted, [])
    | .exit s' ev => (.finished s', [ev])
    | .cont s' ev =>
      let rest := runFrom ora (k + 1) fuel s'
      (rest.1, ev :: rest.2)

def initLoopState (input : List Frame) : LoopState :=
  ⟨⟨input, none, false, []⟩, false, false⟩

/-! ## Derived observers and well-formed inputs -/

def RunResult.isFinished : RunResult → Bool
  | .finished _ => true
  | _ => false

def finState : RunResult → LoopState
  | .finished s => s
  | .outOfFuel s => s
  | .aborted => default

def trailerCount (s : LoopState) : Nat :=
  match s.enc.ffmpeg_context with
  | some ctx => ctx.octx.trailer_writes
  | none => 0

def writtenPackets (s : CollectedAVFfmpegEncoder) : List Packet :=
  match s.ffmpeg_context with
  | some ctx => ctx.octx.written
  | none => []

def videoFilterQueue (s : CollectedAVFfmpegEncoder) : List Int :=
  match s.ffmpeg_context with
  | some ctx =>
    match ctx.video with
    | some vc => vc.filter.queue
    | none => []
  | none => []

def audioFilterQueue (s : CollectedAVFfmpegEncoder) : List Int :=
  match s.ffmpeg_context with
  | some ctx =>
    match ctx.audio with
    | some ac => ac.filter.queue
    | none => []
  | none => []

def videoActive (s : LoopState) : Bool :=
  match s.enc.ffmpeg_context with
  | some ctx => ctx.video.isSome
  | none => false

def audioActive (s : LoopState) : Bool :=
  match s.enc.ffmpeg_context with
  | some ctx => ctx.audio.isSome
  | none => false

def videoSignaled (s : LoopState) : Bool :=
  match s.enc.ffmpeg_context with
  | some ctx =>
    match ctx.video with
    | some vc => vc.encoder.eof_signaled
    | none => false
  | none => false

def audioSignaled (s : LoopState) : Bool :=
  match s.enc.ffmpeg_context with
  | some ctx =>
    match ctx.audio with
    | some ac => ac.encoder.eof_signaled
    | none => false
  | none => false

/-- Count of successful end-of-stream sends to the encoder of stream `k`
across a list of iteration events. -/
def eofOkCount (evs : List IterEvents) (k : StreamKind) : Nat :=
  ((evs.flatMap (·.eof_sends)).filter
    (fun p => p.1 == k && p.2 == SendEofResult.okSend)).length

def buildCount (evs : List IterEvents) : Nat :=
  (evs.filter (·.session_built)).length

def trailerEvents (evs : List IterEvents) : Nat :=
  (evs.filter (·.trailer_written)).length

/-- The drained stage-outcome pattern `(WouldBlock, WouldBlock, Eof, Eof)`. -/
def drainPattern : OperationResults :=
  ⟨some FfErr.again, some FfErr.again, some FfErr.eofErr, some FfErr.eofErr⟩

def mediaMatches (args : OutputArgs) (f : Frame) : Bool :=
  match f.data with
  | .video _ => args.hasVideo
  | .audio _ => args.hasAudio
  | _ => false

/-- A well-formed producer trace: `Configure`, then media frames for the
configured streams, then `End`. -/
def mkInput (args : OutputArgs) (media : List Frame) (n0 nE : Nat) : List Frame :=
  ⟨FrameData.configure args, n0⟩ :: media ++ [⟨FrameData.endStream, nE⟩]

def goodInit (s : LoopState) : Prop :=
  s.enc.ffmpeg_context = none ∧ s.enc.is_ending = false ∧
  s.ops_bound = false ∧ s.eof_was_sent_to_encoders = false

/-! ## Observers on the worker state -/

def vActE (s : CollectedAVFfmpegEncoder) : Bool :=
  match s.ffmpeg_context with
  | some ctx => ctx.video.isSome
  | none => false

def aActE (s : CollectedAVFfmpegEncoder) : Bool :=
  match s.ffmpeg_context with
  | some ctx => ctx.audio.isSome
  | none => false

def vSigE (s : CollectedAVFfmpegEncoder) : Bool :=
  match s.ffmpeg_context with
  | some ctx =>
    match ctx.video with
    | some vc => vc.encoder.eof_signaled
    | none => false
  | none => false

def aSigE (s : CollectedAVFfmpegEncoder) : Bool :=
  match s.ffmpeg_context with
  | some ctx =>
    match ctx.audio with
    | some ac => ac.encoder.eof_signaled
    | none => false
  | none => false

def trailersE (s : CollectedAVFfmpegEncoder) : Nat :=
  match s.ffmpeg_context with
  | some ctx => ctx.octx.trailer_writes
  | none => 0

def streamsE (s : CollectedAVFfmpegEncoder) : List OStream :=
  match s.ffmpeg_context with
  | some ctx => ctx.octx.streams
  | none => []

def vIQ (s : CollectedAVFfmpegEncoder) : List Int :=
  match s.ffmpeg_context with
  | some ctx =>
    match ctx.video with
    | some vc => vc.encoder.in_queue
    | none => []
  | none => []

def aIQ (s : CollectedAVFfmpegEncoder) : List Int :=
  match s.ffmpeg_context with
  | some ctx =>
    match ctx.audio with
    | some ac => ac.encoder.in_queue
    | none => []
  | none => []

/-- The scheduler-relevant footprint a stage evaluation leaves untouched. -/
def EncPres (s s' : CollectedAVFfmpegEncoder) : Prop :=
  s'.receiver = s.receiver ∧ s'.is_ending = s.is_ending ∧
  s'.ffmpeg_context.isSome = s.ffmpeg_context.isSome ∧
  vActE s' = vActE s ∧ aActE s' = aActE s ∧
  vSigE s' = vSigE s ∧ aSigE s' = aSigE s ∧
  trailersE s' = trailersE s ∧ streamsE s' = streamsE s

def sendOkCount (sends : List (StreamKind × SendEofResult)) (k : StreamKind) : Nat :=
  (sends.filter (fun p => p.1 == k && p.2 == SendEofResult.okSend)).length

/-! ## Invariants and the termination measure -/

def ctxLoad : Option FfmpegContext → Nat
  | none => 0
  | some ctx =>
    (match ctx.video with
     | some vc => 3 * vc.filter.queue.length + 2 * vc.encoder.in_queue.length +
         (if vc.encoder.eof_signaled then 0 else 1)
     | none => 0) +
    (match ctx.audio with
     | some ac => 3 * ac.filter.queue.length + 2 * ac.encoder.in_queue.length +
         (if ac.encoder.eof_signaled then 0 else 1)
     | none => 0)

def loopMeasure (s : LoopState) : Nat :=
  4 * s.enc.receiver.length + ctxLoad s.enc.ffmpeg_context

def ctxMatches (args : OutputArgs) (ctx : FfmpegContext) : Prop :=
  ctx.video.isSome = args.hasVideo ∧ ctx.audio.isSome = args.hasAudio ∧
  (args.hasVideo = true → ctx.octx.streams ≠ [])

/-- Once the flush handshake has recorded success, a session exists and
every active encoder has been signalled end-of-stream. -/
def flagInv (s : LoopState) : Prop :=
  s.eof_was_sent_to_encoders = true →
    s.enc.ffmpeg_context.isSome = true ∧
    (vActE s.enc = true → vSigE s.enc = true) ∧
    (aActE s.enc = true → aSigE s.enc = true)

def pendingOK (args : OutputArgs) (s : CollectedAVFfmpegEncoder) : Prop :=
  if s.is_ending then s.receiver = []
  else ∃ m nE, s.receiver = m ++ [⟨FrameData.endStream, nE⟩] ∧
    ∀ f ∈ m, mediaMatches args f = true

/-- The session-exists half of the run invariant, phrased through the state
observers: a session exists, its sub-contexts match the configured streams,
a video session put at least one stream in the container, and the input
left to process is matching media frames followed by `End` (nothing once
draining). -/
def EncOK (args : OutputArgs) (e : CollectedAVFfmpegEncoder) : Prop :=
  e.ffmpeg_context.isSome = true ∧
  vActE e = args.hasVideo ∧ aActE e = args.hasAudio ∧
  (args.hasVideo = true → streamsE e ≠ []) ∧
  pendingOK args e

/-- Invariant of a run on a well-formed input: either the session exists and
matches the configured streams with all input left being matching media
frames followed by `End`, or nothing has been configured yet and the full
well-formed input is still queued. -/
def InvWF (args : OutputArgs) (s : LoopState) : Prop :=
  flagInv s ∧
  (EncOK args s.enc ∨
   (s.enc.ffmpeg_context = none ∧ s.ops_bound = false ∧ s.enc.is_ending = false ∧
    s.eof_was_sent_to_encoders = false ∧
    ∃ m n0 nE,
      s.enc.receiver = ⟨FrameData.configure args, n0⟩ :: (m ++ [⟨FrameData.endStream, nE⟩]) ∧
      ∀ f ∈ m, mediaMatches args f = true))

/-- Invariant preserved by every iteration under every oracle: the ending
flag implies the operation table is bound, which implies a session exists;
and a recorded flush success implies every active encoder was signalled. -/
def Jinv (s : LoopState) : Prop :=
  (s.enc.is_ending = true → s.ops_bound = true) ∧
  (s.ops_bound = true → s.enc.ffmpeg_context.isSome = true) ∧
  flagInv s

/-- What one iteration guarantees under every oracle: session monotonicity,
one successful end-of-stream send per flag flip, sends only while draining
on an empty queue with both filter pulls blocked, no sends once success was
recorded, trailer accounting, and preservation of `Jinv`. -/
def IterFacts (s s' : LoopState) (ev : IterEvents) : Prop :=
  s'.enc.ffmpeg_context.isSome = (s.enc.ffmpeg_context.isSome || ev.session_built) ∧
  (ev.session_built = true → s.enc.ffmpeg_context.isSome = false) ∧
  (sendOkCount ev.eof_sends StreamKind.video + (if vSigE s.enc then 1 else 0) =
    (if vSigE s'.enc then 1 else 0)) ∧
  (sendOkCount ev.eof_sends StreamKind.audio + (if aSigE s.enc then 1 else 0) =
    (if aSigE s'.enc then 1 else 0)) ∧
  (ev.eof_sends ≠ [] →
    s.eof_was_sent_to_encoders = false ∧ ev.draining = true ∧ ev.queue_empty = true ∧
    ev.results.r0 = some FfErr.again ∧ ev.results.r1 = some FfErr.again) ∧
  (s.eof_was_sent_to_encoders = true →
    ev.eof_sends = [] ∧ s'.eof_was_sent_to_encoders = true) ∧
  ((∃ p ∈ ev.eof_sends, p.2 = SendEofResult.againSend) →
    s'.eof_was_sent_to_encoders = false) ∧
  (ev.eof_sends ≠ [] → (∀ p ∈ ev.eof_sends, p.2 ≠ SendEofResult.againSend) →
    s'.eof_was_sent_to_encoders = true) ∧
  (trailersE s'.enc = trailersE s.enc + (if ev.trailer_written then 1 else 0)) ∧
  (Jinv s → Jinv s')

/-- Everything one round of `send_eof_to_encoders` guarantees: it only flips
encoder end-of-stream flags, it reports one send result per active encoder,
a successful send is counted exactly when a flag flips, and the `succeeded`
flag is set exactly when no send reported `WouldBlock`. -/
def SendEofSpec (o : IterOracle) (s : CollectedAVFfmpegEncoder)
    (out : CollectedAVFfmpegEncoder × Bool × List (StreamKind × SendEofResult)) : Prop :=
  out.1.receiver = s.receiver ∧
  out.1.is_ending = s.is_ending ∧
  out.1.ffmpeg_context.isSome = s.ffmpeg_context.isSome ∧
  vActE out.1 = vActE s ∧ aActE out.1 = aActE s ∧
  trailersE out.1 = trailersE s ∧ streamsE out.1 = streamsE s ∧
  vIQ out.1 = vIQ s ∧ aIQ out.1 = aIQ s ∧
  videoFilterQueue out.1 = videoFilterQueue s ∧
  audioFilterQueue out.1 = audioFilterQueue s ∧
  (sendOkCount out.2.2 StreamKind.video + (if vSigE s then 1 else 0) =
    (if vSigE out.1 then 1 else 0)) ∧
  (sendOkCount out.2.2 StreamKind.audio + (if aSigE s then 1 else 0) =
    (if aSigE out.1 then 1 else 0)) ∧
  (out.2.1 = true →
    (vActE s = true → vSigE out.1 = true) ∧ (aActE s = true → aSigE out.1 = true)) ∧
  (o.v_eof_block = false → o.a_eof_block = false → out.2.1 = true) ∧
  (out.2.1 = true ↔ ∀ p ∈ out.2.2, p.2 ≠ SendEofResult.againSend) ∧
  (vSigE s = true → vSigE out.1 = true) ∧
  (aSigE s = true → aSigE out.1 = true) ∧
  (out.2.2 = [] → out.1 = s)

/-! ## Concrete states used as examples -/

def exVideoArgs : VideoArgs := ⟨0, 60, 4, 2⟩

def exAudioArgs : AudioArgs := ⟨44100⟩

def exInput : List Frame :=
  mkInput (OutputArgs.video exVideoArgs) [⟨FrameData.video ⟨[], 4, 2, 4⟩, 0⟩] 0 1

/-- Drain phase, one frame still buffered in the video filter graph. -/
def exDrainEnc : CollectedAVFfmpegEncoder :=
  { receiver := [],
    ffmpeg_context := some { FfmpegContext.new (OutputArgs.video exVideoArgs) with
      video := some { encoder := ⟨[], false⟩, filter := ⟨[0]⟩, args := exVideoArgs } },
    is_ending := true,
    log := [] }

/-- Drain phase, everything pulled and written, end-of-stream not yet sent. -/
def exFlushEnc : CollectedAVFfmpegEncoder :=
  { receiver := [],
    ffmpeg_context := some (FfmpegContext.new (OutputArgs.video exVideoArgs)),
    is_ending := true,
    log := [] }

def exFlushState : LoopState := ⟨exFlushEnc, true, false⟩

/-- A video session whose encoder holds one retrievable packet. -/
def exVideoLoaded : CollectedAVFfmpegEncoder :=
  { receiver := [], is_ending := false, log := [],
    ffmpeg_context := some { FfmpegContext.new (OutputArgs.video exVideoArgs) with
      video := some { encoder := ⟨[7], false⟩, filter := ⟨[]⟩, args := exVideoArgs } } }

/-- An audio-only session whose encoder holds one retrievable packet. -/
def exAudioLoaded : CollectedAVFfmpegEncoder :=
  { receiver := [], is_ending := false, log := [],
    ffmpeg_context := some { FfmpegContext.new (OutputArgs.audio exAudioArgs) with
      audio := some { encoder := ⟨[7], false⟩, filter := ⟨[]⟩, args := exAudioArgs } } }

/-- An uninitialized worker state. -/
def exUninit : CollectedAVFfmpegEncoder :=
  { receiver := [], ffmpeg_context := none, is_ending := false, log := [] }

def HandleResult.okState : HandleResult → Option CollectedAVFfmpegEncoder
  | .ok s => some s
  | .panicked => none

def StageStep.okState : StageStep → Option CollectedAVFfmpegEncoder
  | .success s => some s
  | _ => none

/-- The state one ideal-oracle iteration from `exFlushState` reaches: the
end-of-stream send to the video encoder succeeded. -/
def exC2State : LoopState :=
  { enc :=
      { receiver := [],
        ffmpeg_context := some { FfmpegContext.new (OutputArgs.video exVideoArgs) with
          video := some { encoder := ⟨[], true⟩, filter := ⟨[]⟩, args := exVideoArgs } },
        is_ending := true,
        log := [] },
    ops_bound := true,
    eof_was_sent_to_encoders := true }

/-- The events of that iteration. -/
def exC2Ev : IterEvents :=
  ⟨true, true, ⟨some FfErr.again, some FfErr.again, some FfErr.again, some FfErr.eofErr⟩,
   false, false, [(StreamKind.video, SendEofResult.okSend)]⟩

/-- A complete ideal-oracle run on the example well-formed input. -/
def exRun : RunResult × List IterEvents := runFrom idealRun 0 5 (initLoopState exInput)

def exRunFinal : LoopState := finState exRun.1

/-! # Theorems

## De-interleaving (sink.rs: `on_audio_sample_batch`) -/

theorem stepBy2_cons (x : Int) (l : List Int) :
    stepBy2 (x :: l) = x :: stepBy2 (l.drop 1) := by
  cases l <;> rfl

theorem deint_cons2 (a b : Int) (l : List Int) :
    deinterleavePairs (a :: b :: l) = (a, b) :: deinterleavePairs l := by
  show (stepBy2 (a :: b :: l)).zip (stepBy2 ((a :: b :: l).drop 1)) = _
  rw [show stepBy2 (a :: b :: l) = a :: stepBy2 l from rfl,
    show (a :: b :: l).drop 1 = b :: l from rfl, stepBy2_cons]
  rfl

theorem deint_length : ∀ l : List Int,
    (deinterleavePairs l).length = l.length / 2
  | [] => rfl
  | [_] => by simp [deinterleavePairs, stepBy2]
  | a :: b :: rest => by
    rw [deint_cons2, List.length_cons, deint_length rest]
    simp only [List.length_cons]
    omega

theorem deint_getElem : ∀ (l : List Int) (i : Nat) (lv rv : Int),
    l[2 * i]? = some lv → l[2 * i + 1]? = some rv →
    (deinterleavePairs l)[i]? = some (lv, rv)
  | [], _, _, _ => by intro h _; simp at h
  | [x], i, lv, rv => by
    intro _ h2
    rw [List.getElem?_eq_none (by simp)] at h2
    exact absurd h2 (by simp)
  | a :: b :: rest, 0, lv, rv => by
    intro h1 h2
    simp only [Nat.mul_zero, List.getElem?_cons_zero, Nat.zero_add,
      List.getElem?_cons_succ] at h1 h2
    rw [deint_cons2]
    simp_all
  | a :: b :: rest, i + 1, lv, rv => by
    intro h1 h2
    rw [show 2 * (i + 1) = 2 * i + 1 + 1 by ring, List.getElem?_cons_succ,
      List.getElem?_cons_succ] at h1
    rw [show 2 * (i + 1) + 1 = 2 * i + 1 + 1 + 1 by ring, List.getElem?_cons_succ,
      List.getElem?_cons_succ] at h2
    rw [deint_cons2, List.getElem?_cons_succ]
    exact deint_getElem rest i lv rv h1 h2

/-- **C7**: `on_audio_sample_batch` de-interleaves `[L0,R0,L1,R1,...]` into
pairs `(L0,R0),(L1,R1),...` in order, appends them to the accumulator, then
flushes the entire accumulated buffer (including pairs added earlier via
`on_audio_sample`) as exactly one `AudioPlane` frame tagged with the given
sequence number, leaving the accumulator empty. -/
theorem c7_submit_audio_batch (c : RetroAVCollector) (stereo_pcm : List Int) (seq : Nat) :
    (c.on_audio_sample_batch stereo_pcm seq).2 = stereo_pcm.length ∧
    (c.on_audio_sample_batch stereo_pcm seq).1.audio_buf = [] ∧
    (c.on_audio_sample_batch stereo_pcm seq).1.sent =
      c.sent ++ [⟨FrameData.audio ⟨c.audio_buf ++ deinterleavePairs stereo_pcm⟩, seq⟩] ∧
    (deinterleavePairs stereo_pcm).length = stereo_pcm.length / 2 ∧
    (∀ i lv rv, stereo_pcm[2 * i]? = some lv → stereo_pcm[2 * i + 1]? = some rv →
      (deinterleavePairs stereo_pcm)[i]? = some (lv, rv)) :=
  ⟨rfl, rfl, rfl, deint_length _, fun i lv rv h1 h2 => deint_getElem _ i lv rv h1 h2⟩

theorem c7_witness :
    (([10, 20, 30, 40] : List Int)[2 * 1]? = some 30 ∧
      ([10, 20, 30, 40] : List Int)[2 * 1 + 1]? = some 40) ∧
    (deinterleavePairs [10, 20, 30, 40])[1]? = some (30, 40) :=
  ⟨⟨by decide, by decide⟩,
    (c7_submit_audio_batch ⟨[], [(1, 2)]⟩ [10, 20, 30, 40] 5).2.2.2.2 1 30 40
      (by decide) (by decide)⟩

/-! ## Row copy (encoder.rs: `frame_from_video_plane`) -/

theorem setRange_length (dst src : List Nat) (start : Nat)
    (hb : start + src.length ≤ dst.length) :
    (setRange dst start src).length = dst.length := by
  simp only [setRange, List.length_append, List.length_take, List.length_drop]
  omega

theorem setRange_getElem_left (dst src : List Nat) (start j : Nat)
    (hj : j < start) (hb : start + src.length ≤ dst.length) :
    (setRange dst start src)[j]? = dst[j]? := by
  have htake : (dst.take start).length = start := by
    rw [List.length_take]; omega
  unfold setRange
  rw [List.getElem?_append,
    if_pos (by simp only [List.length_append, htake]; omega),
    List.getElem?_append, if_pos (by rw [htake]; exact hj),
    List.getElem?_take, if_pos hj]

theorem setRange_getElem_mid (dst src : List Nat) (start j : Nat)
    (h1 : start ≤ j) (h2 : j < start + src.length)
    (hb : start + src.length ≤ dst.length) :
    (setRange dst start src)[j]? = src[j - start]? := by
  have htake : (dst.take start).length = start := by
    rw [List.length_take]; omega
  unfold setRange
  rw [List.getElem?_append,
    if_pos (by simp only [List.length_append, htake]; omega),
    List.getElem?_append, if_neg (by rw [htake]; omega)]
  congr 1
  rw [htake]

theorem setRange_getElem_right (dst src : List Nat) (start j : Nat)
    (hge : start + src.length ≤ j) (hb : start + src.length ≤ dst.length) :
    (setRange dst start src)[j]? = dst[j]? := by
  have htake : (dst.take start).length = start := by
    rw [List.length_take]; omega
  unfold setRange
  rw [List.getElem?_append,
    if_neg (by simp only [List.length_append, htake]; omega),
    List.getElem?_drop]
  congr 1
  simp only [List.length_append, htake]
  omega

theorem take_drop_getElem (l : List Nat) (a m i : Nat) (hi : i < m) :
    ((l.drop a).take m)[i]? = l[a + i]? := by
  rw [List.getElem?_take, if_pos hi, List.getElem?_drop]

theorem copyRow_eq (src : List Nat) (pitch stride y : Nat) (dst : List Nat)
    (h1 : y * stride + Nat.min stride pitch ≤ dst.length)
    (h2 : y * pitch + Nat.min stride pitch ≤ src.length) :
    copyRow src pitch stride y dst =
      some (setRange dst (y * stride)
        ((src.drop (y * pitch)).take (Nat.min stride pitch))) := by
  simp only [copyRow]
  rw [if_pos ⟨h1, h2⟩]

theorem copyRows_spec (src : List Nat) (pitch stride : Nat) :
    ∀ (h : Nat) (dst : List Nat),
      (∀ y, y < h → y * stride + Nat.min stride pitch ≤ dst.length) →
      (∀ y, y < h → y * pitch + Nat.min stride pitch ≤ src.length) →
      ∃ d, (List.range h).foldlM
          (fun dst y => copyRow src pitch stride y dst) dst = some d ∧
        d.length = dst.length ∧
        (∀ y i, y < h → i < Nat.min stride pitch →
          d[y * stride + i]? = src[y * pitch + i]?) ∧
        (∀ j, (∀ y i, y < h → i < Nat.min stride pitch → j ≠ y * stride + i) →
          d[j]? = dst[j]?) := by
  intro h
  induction h with
  | zero =>
    intro dst _ _
    exact ⟨dst, rfl, rfl, fun y i hy _ => absurd hy (Nat.not_lt_zero y),
      fun j _ => rfl⟩
  | succ h ih =>
    intro dst hd hs
    obtain ⟨d, hfold, hlen, hchar, hout⟩ :=
      ih dst (fun y hy => hd y (Nat.lt_succ_of_lt hy))
        (fun y hy => hs y (Nat.lt_succ_of_lt hy))
    have hdh : h * stride + Nat.min stride pitch ≤ d.length := by
      rw [hlen]; exact hd h (Nat.lt_succ_self h)
    have hsh : h * pitch + Nat.min stride pitch ≤ src.length :=
      hs h (Nat.lt_succ_self h)
    have hseg : ((src.drop (h * pitch)).take (Nat.min stride pitch)).length =
        Nat.min stride pitch := by
      simp only [List.length_take, List.length_drop]
      omega
    refine ⟨setRange d (h * stride)
      ((src.drop (h * pitch)).take (Nat.min stride pitch)), ?_, ?_, ?_, ?_⟩
    · rw [List.range_succ, List.foldlM_append, hfold]
      simp [List.foldlM, copyRow_eq src pitch stride h d hdh hsh]
    · rw [setRange_length _ _ _ (by rw [hseg]; exact hdh), hlen]
    · intro y i hy hi
      rcases Nat.lt_succ_iff_lt_or_eq.mp hy with hy' | hy'
      · have hi' : i < stride := lt_of_lt_of_le hi (Nat.min_le_left _ _)
        have hlt : y * stride + i < h * stride := by
          calc y * stride + i < y * stride + stride := Nat.add_lt_add_left hi' _
            _ = (y + 1) * stride := by ring
            _ ≤ h * stride := Nat.mul_le_mul_right stride hy'
        rw [setRange_getElem_left _ _ _ _ hlt (by rw [hseg]; exact hdh)]
        exact hchar y i hy' hi
      · rw [hy']
        have e1 : h * stride ≤ h * stride + i := Nat.le_add_right _ _
        have e2 : h * stride + i <
            h * stride + ((src.drop (h * pitch)).take (Nat.min stride pitch)).length := by
          rw [hseg]; omega
        rw [setRange_getElem_mid _ _ _ _ e1 e2 (by rw [hseg]; exact hdh)]
        have e3 : h * stride + i - h * stride = i := by omega
        rw [e3, take_drop_getElem _ _ _ _ hi]
    · intro j hj
      have hrow : j < h * stride ∨ h * stride + Nat.min stride pitch ≤ j := by
        by_contra hc
        push_neg at hc
        exact hj h (j - h * stride) (Nat.lt_succ_self h) (by omega) (by omega)
      have IH := hout j (fun y i hy hi => hj y i (Nat.lt_succ_of_lt hy) hi)
      rcases hrow with hlt | hge
      · rw [setRange_getElem_left _ _ _ _ hlt (by rw [hseg]; exact hdh)]
        exact IH
      · rw [setRange_getElem_right _ _ _ _ (by rw [hseg]; exact hge)
          (by rw [hseg]; exact hdh)]
        exact IH

/-- **C8**: when the source pitch differs from the destination stride, the
plane is copied row by row, exactly `min(pitch, stride)` bytes per row land
at their place in the destination, the rest of each destination row keeps
its initial contents, and no access goes out of bounds on either buffer
(the copy returns a value instead of panicking). -/
theorem c8_video_plane_row_copy (vplane : VideoPlane) (stride : Nat)
    (hp : vplane.pitch ≠ stride)
    (hsrc : vplane.height * vplane.pitch ≤ vplane.data.length) :
    ∃ out, frame_from_video_plane vplane stride = some out ∧
      out.length = stride * vplane.height ∧
      (∀ y i, y < vplane.height → i < Nat.min stride vplane.pitch →
        out[y * stride + i]? = vplane.data[y * vplane.pitch + i]?) ∧
      (∀ y i, y < vplane.height → Nat.min stride vplane.pitch ≤ i → i < stride →
        out[y * stride + i]? = some 0) := by
  have hd : ∀ y, y < vplane.height →
      y * stride + Nat.min stride vplane.pitch ≤
        (List.replicate (stride * vplane.height) (0 : Nat)).length := by
    intro y hy
    rw [List.length_replicate]
    have h1 : (y + 1) * stride ≤ vplane.height * stride :=
      Nat.mul_le_mul_right stride hy
    have e : y * stride + stride = (y + 1) * stride := by ring
    have e2 : vplane.height * stride = stride * vplane.height := Nat.mul_comm _ _
    have hm : Nat.min stride vplane.pitch ≤ stride := Nat.min_le_left _ _
    omega
  have hs : ∀ y, y < vplane.height →
      y * vplane.pitch + Nat.min stride vplane.pitch ≤ vplane.data.length := by
    intro y hy
    have h1 : (y + 1) * vplane.pitch ≤ vplane.height * vplane.pitch :=
      Nat.mul_le_mul_right vplane.pitch hy
    have e : y * vplane.pitch + vplane.pitch = (y + 1) * vplane.pitch := by ring
    have hm : Nat.min stride vplane.pitch ≤ vplane.pitch := Nat.min_le_right _ _
    omega
  obtain ⟨d, hfold, hlen, hchar, hout⟩ :=
    copyRows_spec vplane.data vplane.pitch stride vplane.height _ hd hs
  refine ⟨d, ?_, ?_, fun y i hy hi => hchar y i hy hi, ?_⟩
  · unfold frame_from_video_plane
    rw [if_neg (fun hcon => hp hcon.2)]
    exact hfold
  · rw [hlen, List.length_replicate]
  · intro y i hy hm1 hm2
    have hstride0 : 0 < stride := lt_of_le_of_lt (Nat.zero_le _) hm2
    have hne : ∀ y' i', y' < vplane.height → i' < Nat.min stride vplane.pitch →
        y * stride + i ≠ y' * stride + i' := by
      intro y' i' _ hi' heq
      have hi'stride : i' < stride :=
        lt_of_lt_of_le hi' (Nat.min_le_left _ _)
      have e1 : (y * stride + i) % stride = i := by
        rw [Nat.mul_comm, Nat.mul_add_mod, Nat.mod_eq_of_lt hm2]
      have e2 : (y' * stride + i') % stride = i' := by
        rw [Nat.mul_comm, Nat.mul_add_mod, Nat.mod_eq_of_lt hi'stride]
      have : i = i' := by rw [← e1, heq, e2]
      omega
    rw [hout (y * stride + i) hne, List.getElem?_replicate,
      if_pos (by
        have h1 : (y + 1) * stride ≤ vplane.height * stride :=
          Nat.mul_le_mul_right stride hy
        have e : y * stride + stride = (y + 1) * stride := by ring
        have e2 : vplane.height * stride = stride * vplane.height := Nat.mul_comm _ _
        omega)]

theorem c8_witness :
    ((⟨[1, 2, 3, 4, 5, 6], 2, 2, 3⟩ : VideoPlane).pitch ≠ 2 ∧
      (⟨[1, 2, 3, 4, 5, 6], 2, 2, 3⟩ : VideoPlane).height *
        (⟨[1, 2, 3, 4, 5, 6], 2, 2, 3⟩ : VideoPlane).pitch ≤
        (⟨[1, 2, 3, 4, 5, 6], 2, 2, 3⟩ : VideoPlane).data.length) ∧
    (∃ out, frame_from_video_plane ⟨[1, 2, 3, 4, 5, 6], 2, 2, 3⟩ 2 = some out ∧
      out.length = 2 * 2 ∧
      (∀ y i, y < 2 → i < Nat.min 2 3 →
        out[y * 2 + i]? = ([1, 2, 3, 4, 5, 6] : List Nat)[y * 3 + i]?) ∧
      (∀ y i, y < 2 → Nat.min 2 3 ≤ i → i < 2 → out[y * 2 + i]? = some 0)) :=
  ⟨⟨by decide, by decide⟩,
    c8_video_plane_row_copy ⟨[1, 2, 3, 4, 5, 6], 2, 2, 3⟩ 2 (by decide) (by decide)⟩

/-! ## Preservation lemmas for the stage operations -/

theorem EncPres.refl (s : CollectedAVFfmpegEncoder) : EncPres s s :=
  ⟨rfl, rfl, rfl, rfl, rfl, rfl, rfl, rfl, rfl⟩

theorem receive_eofRecv {e : BackendEncoder} {blk : Bool}
    (h : e.receive_packet blk = .eofRecv) :
    e.eof_signaled = true ∧ e.in_queue = [] := by
  unfold BackendEncoder.receive_packet at h
  repeat' split at h
  all_goals cases h
  all_goals simp_all

theorem receive_packet_sig {e : BackendEncoder} {blk : Bool} {pts : Int}
    {e' : BackendEncoder} (h : e.receive_packet blk = .packet pts e') :
    e'.eof_signaled = e.eof_signaled := by
  unfold BackendEncoder.receive_packet at h
  repeat' split at h
  all_goals cases h
  rfl

theorem vpull_pres {o : IterOracle} {s s' : CollectedAVFfmpegEncoder}
    (h : get_filtered_video_frame_and_start_encode o s = .success s') :
    EncPres s s' := by
  unfold get_filtered_video_frame_and_start_encode at h
  repeat' split at h
  all_goals cases h
  all_goals simp_all [EncPres, vActE, aActE, vSigE, aSigE, trailersE, streamsE,
    BackendEncoder.send_frame]

theorem apull_pres {o : IterOracle} {s s' : CollectedAVFfmpegEncoder}
    (h : get_filtered_audio_frame_and_start_encode o s = .success s') :
    EncPres s s' := by
  unfold get_filtered_audio_frame_and_start_encode at h
  repeat' split at h
  all_goals cases h
  all_goals simp_all [EncPres, vActE, aActE, vSigE, aSigE, trailersE, streamsE,
    BackendEncoder.send_frame]

theorem vwrite_pres {o : IterOracle} {s s' : CollectedAVFfmpegEncoder}
    (h : write_encoded_video_packet o s = .success s') :
    EncPres s s' := by
  unfold write_encoded_video_packet at h
  repeat' split at h
  all_goals cases h
  all_goals simp_all [EncPres, vActE, aActE, vSigE, aSigE, trailersE, streamsE,
    OutputContext.write_interleaved]
  all_goals exact receive_packet_sig (by assumption)

theorem awrite_pres {o : IterOracle} {s s' : CollectedAVFfmpegEncoder}
    (h : write_encoded_audio_packet o s = .success s') :
    EncPres s s' := by
  unfold write_encoded_audio_packet at h
  repeat' split at h
  all_goals cases h
  all_goals simp_all [EncPres, vActE, aActE, vSigE, aSigE, trailersE, streamsE,
    OutputContext.write_interleaved]
  all_goals exact receive_packet_sig (by assumption)

theorem step0_pres {b : Bool} {o : IterOracle} {s s' : CollectedAVFfmpegEncoder}
    (h : step0 b o s = .success s') : EncPres s s' := by
  unfold step0 at h
  split at h
  · exact vpull_pres h
  · cases h

theorem step1_pres {b : Bool} {o : IterOracle} {s s' : CollectedAVFfmpegEncoder}
    (h : step1 b o s = .success s') : EncPres s s' := by
  unfold step1 at h
  split at h
  · exact apull_pres h
  · cases h

theorem step2_pres {b : Bool} {o : IterOracle} {s s' : CollectedAVFfmpegEncoder}
    (h : step2 b o s = .success s') : EncPres s s' := by
  unfold step2 at h
  split at h
  · exact vwrite_pres h
  · cases h

theorem step3_pres {b : Bool} {o : IterOracle} {s s' : CollectedAVFfmpegEncoder}
    (h : step3 b o s = .success s') : EncPres s s' := by
  unfold step3 at h
  split at h
  · exact awrite_pres h
  · cases h

theorem runStages_pres {b : Bool} {o : IterOracle} {r : OperationResults}
    {s s' : CollectedAVFfmpegEncoder}
    (h : runStages b o s = some (r, s')) : EncPres s s' := by
  unfold runStages at h
  repeat' split at h
  all_goals cases h
  · exact step0_pres (by assumption)
  · exact step1_pres (by assumption)
  · exact step2_pres (by assumption)
  · exact step3_pres (by assumption)
  · exact EncPres.refl s

theorem vwrite_eofErr {o : IterOracle} {s : CollectedAVFfmpegEncoder}
    (h : write_encoded_video_packet o s = .err FfErr.eofErr) : vSigE s = true := by
  unfold write_encoded_video_packet at h
  repeat' split at h
  all_goals cases h
  rename_i hr
  obtain ⟨hsig, -⟩ := receive_eofRecv hr
  simp_all [vSigE]

theorem awrite_eofErr {o : IterOracle} {s : CollectedAVFfmpegEncoder}
    (h : write_encoded_audio_packet o s = .err FfErr.eofErr) : aSigE s = true := by
  unfold write_encoded_audio_packet at h
  repeat' split at h
  all_goals cases h
  rename_i hr
  obtain ⟨hsig, -⟩ := receive_eofRecv hr
  simp_all [aSigE]

theorem step2_eofErr {b : Bool} {o : IterOracle} {s : CollectedAVFfmpegEncoder}
    (h : step2 b o s = .err FfErr.eofErr) :
    videoBound b s = false ∨ vSigE s = true := by
  unfold step2 at h
  split at h
  · exact Or.inr (vwrite_eofErr h)
  · exact Or.inl (by simp_all)

theorem step3_eofErr {b : Bool} {o : IterOracle} {s : CollectedAVFfmpegEncoder}
    (h : step3 b o s = .err FfErr.eofErr) :
    audioBound b s = false ∨ aSigE s = true := by
  unfold step3 at h
  split at h
  · exact Or.inr (awrite_eofErr h)
  · exact Or.inl (by simp_all)

theorem runStages_r2 {b : Bool} {o : IterOracle} {r : OperationResults}
    {s s' : CollectedAVFfmpegEncoder}
    (h : runStages b o s = some (r, s')) (h2 : r.r2 = some FfErr.eofErr) :
    videoBound b s = false ∨ vSigE s = true := by
  unfold runStages at h
  repeat' split at h
  all_goals cases h
  all_goals simp at h2
  all_goals subst h2
  all_goals exact step2_eofErr (by assumption)

theorem runStages_r3 {b : Bool} {o : IterOracle} {r : OperationResults}
    {s s' : CollectedAVFfmpegEncoder}
    (h : runStages b o s = some (r, s')) (h2 : r.r3 = some FfErr.eofErr) :
    audioBound b s = false ∨ aSigE s = true := by
  unfold runStages at h
  repeat' split at h
  all_goals cases h
  all_goals simp at h2
  all_goals subst h2
  all_goals exact step3_eofErr (by assumption)

/-! ## Characterization of `FfmpegContext.new` and `handle_frame` -/

theorem new_spec (args : OutputArgs) :
    (FfmpegContext.new args).video.isSome = args.hasVideo ∧
    (FfmpegContext.new args).audio.isSome = args.hasAudio ∧
    (∀ vc, (FfmpegContext.new args).video = some vc →
      vc.encoder = ⟨[], false⟩ ∧ vc.filter = ⟨[]⟩) ∧
    (∀ ac, (FfmpegContext.new args).audio = some ac →
      ac.encoder = ⟨[], false⟩ ∧ ac.filter = ⟨[]⟩) ∧
    (FfmpegContext.new args).octx.trailer_writes = 0 ∧
    (FfmpegContext.new args).octx.written = [] ∧
    (args.hasVideo = true → (FfmpegContext.new args).octx.streams ≠ []) := by
  cases args <;>
    simp [FfmpegContext.new, OutputArgs.hasVideo, OutputArgs.hasAudio]

theorem handle_video {s : CollectedAVFfmpegEncoder} {ctx : FfmpegContext}
    {vc : FfmpegVideoContext} {vp : VideoPlane} {n : Nat}
    (hc : s.ffmpeg_context = some ctx) (hv : ctx.video = some vc) :
    handle_frame s ⟨FrameData.video vp, n⟩ =
      .ok { s with
        ffmpeg_context := some { ctx with
          video := some { vc with filter := vc.filter.push (n : Int) } },
        log := s.log ++ [(LogSources.sink, LogMsg.videoFrame n)] } := by
  simp [handle_frame, hc, hv]

theorem handle_audio {s : CollectedAVFfmpegEncoder} {ctx : FfmpegContext}
    {ac : FfmpegAudioContext} {ap : AudioPlane} {n : Nat}
    (hc : s.ffmpeg_context = some ctx) (ha : ctx.audio = some ac) :
    handle_frame s ⟨FrameData.audio ap, n⟩ =
      .ok { s with
        ffmpeg_context := some { ctx with
          audio := some { ac with filter := ac.filter.push (n : Int) } },
        log := s.log ++ [(LogSources.sink, LogMsg.audioFrame n)] } := by
  simp [handle_frame, hc, ha]

theorem handle_configure_none {s : CollectedAVFfmpegEncoder} {args : OutputArgs}
    {n : Nat} (hc : s.ffmpeg_context = none) :
    handle_frame s ⟨FrameData.configure args, n⟩ =
      .ok { s with
        ffmpeg_context := some (FfmpegContext.new args),
        log := s.log ++ [(LogSources.sink, LogMsg.configureFrame n)] } := by
  simp [handle_frame, hc]

theorem handle_configure_some {s : CollectedAVFfmpegEncoder} {ctx : FfmpegContext}
    {args : OutputArgs} {n : Nat} (hc : s.ffmpeg_context = some ctx) :
    handle_frame s ⟨FrameData.configure args, n⟩ =
      .ok { s with
        log := s.log ++ [(LogSources.sink, LogMsg.rejectedConfigure n)] } := by
  simp [handle_frame, hc]

theorem handle_end_some {s : CollectedAVFfmpegEncoder} {ctx : FfmpegContext}
    {n : Nat} (hc : s.ffmpeg_context = some ctx) :
    handle_frame s ⟨FrameData.endStream, n⟩ =
      .ok { s with
        is_ending := true,
        log := s.log ++ [(LogSources.sink, LogMsg.stopProcessing n)] } := by
  simp [handle_frame, hc]

/-- Facts every non-panicking dispatch preserves. -/
theorem handle_frame_inv {s s' : CollectedAVFfmpegEncoder} {f : Frame}
    (h : handle_frame s f = .ok s') :
    s'.receiver = s.receiver ∧
    (vSigE s' = vSigE s ∧ aSigE s' = aSigE s) ∧
    trailersE s' = trailersE s ∧
    (s.ffmpeg_context.isSome = true → s'.ffmpeg_context.isSome = true) ∧
    (s'.is_ending = true → s.is_ending = true ∨ s.ffmpeg_context.isSome = true) ∧
    (s.ffmpeg_context.isSome = true →
      vActE s' = vActE s ∧ aActE s' = aActE s ∧ streamsE s' = streamsE s) := by
  obtain ⟨fd, n⟩ := f
  rcases hc : s.ffmpeg_context with _ | ctx
  · cases fd
    case video => simp [handle_frame, hc] at h
    case audio => simp [handle_frame, hc] at h
    case endStream => simp [handle_frame, hc] at h
    case configure args =>
      rw [handle_configure_none hc] at h
      cases h
      obtain ⟨-, -, hvc, hac, htr, -, -⟩ := new_spec args
      refine ⟨rfl, ⟨?_, ?_⟩, ?_, by simp [hc], by simp [hc], by simp [hc]⟩
      · rcases hnv : (FfmpegContext.new args).video with _ | vc
        · simp [vSigE, hc, hnv]
        · simp [vSigE, hc, hnv, (hvc vc hnv).1]
      · rcases hna : (FfmpegContext.new args).audio with _ | ac
        · simp [aSigE, hc, hna]
        · simp [aSigE, hc, hna, (hac ac hna).1]
      · simp [trailersE, hc, htr]
  · cases fd
    case video vp =>
      rcases hv : ctx.video with _ | vc
      · simp [handle_frame, hc, hv] at h
      · rw [handle_video hc hv] at h
        cases h
        simp_all [vSigE, aSigE, trailersE, vActE, aActE, streamsE]
    case audio ap =>
      rcases ha : ctx.audio with _ | ac
      · simp [handle_frame, hc, ha] at h
      · rw [handle_audio hc ha] at h
        cases h
        simp_all [vSigE, aSigE, trailersE, vActE, aActE, streamsE]
    case configure args =>
      rw [handle_configure_some hc] at h
      cases h
      simp_all [vSigE, aSigE, trailersE, vActE, aActE, streamsE]
    case endStream =>
      rw [handle_end_some hc] at h
      cases h
      simp_all [vSigE, aSigE, trailersE, vActE, aActE, streamsE]

/-! ## The end-of-stream send round -/

theorem send_eof_spec (o : IterOracle) (s : CollectedAVFfmpegEncoder) :
    SendEofSpec o s (send_eof_to_encoders o s) := by
  unfold send_eof_to_encoders SendEofSpec
  rcases hc : s.ffmpeg_context with _ | ctx
  · simp [hc, vActE, aActE, vSigE, aSigE, trailersE, streamsE, vIQ, aIQ,
      videoFilterQueue, audioFilterQueue, sendOkCount]
  · rcases hv : ctx.video with _ | vc <;> rcases ha : ctx.audio with _ | ac
    · simp [hc, hv, ha, vActE, aActE, vSigE, aSigE, trailersE, streamsE, vIQ, aIQ,
        videoFilterQueue, audioFilterQueue, sendOkCount]
    · cases hsa : ac.encoder.eof_signaled
      · cases hba : o.a_eof_block
        · simp [hc, hv, ha, hsa, hba, BackendEncoder.send_eof, vActE, aActE, vSigE,
            aSigE, trailersE, streamsE, vIQ, aIQ, videoFilterQueue, audioFilterQueue,
            sendOkCount]
        · simp [hc, hv, ha, hsa, hba, BackendEncoder.send_eof, vActE, aActE, vSigE,
            aSigE, trailersE, streamsE, vIQ, aIQ, videoFilterQueue, audioFilterQueue,
            sendOkCount]
      · simp [hc, hv, ha, hsa, BackendEncoder.send_eof, vActE, aActE, vSigE,
          aSigE, trailersE, streamsE, vIQ, aIQ, videoFilterQueue, audioFilterQueue,
          sendOkCount]
    · cases hsv : vc.encoder.eof_signaled
      · cases hbv : o.v_eof_block
        · simp [hc, hv, ha, hsv, hbv, BackendEncoder.send_eof, vActE, aActE, vSigE,
            aSigE, trailersE, streamsE, vIQ, aIQ, videoFilterQueue, audioFilterQueue,
            sendOkCount]
        · simp [hc, hv, ha, hsv, hbv, BackendEncoder.send_eof, vActE, aActE, vSigE,
            aSigE, trailersE, streamsE, vIQ, aIQ, videoFilterQueue, audioFilterQueue,
            sendOkCount]
      · simp [hc, hv, ha, hsv, BackendEncoder.send_eof, vActE, aActE, vSigE,
          aSigE, trailersE, streamsE, vIQ, aIQ, videoFilterQueue, audioFilterQueue,
          sendOkCount]
    · cases hsv : vc.encoder.eof_signaled <;> cases hsa : ac.encoder.eof_signaled
      · cases hbv : o.v_eof_block <;> cases hba : o.a_eof_block
        all_goals simp [hc, hv, ha, hsv, hsa, hbv, hba, BackendEncoder.send_eof,
          vActE, aActE, vSigE, aSigE, trailersE, streamsE, vIQ, aIQ,
          videoFilterQueue, audioFilterQueue, sendOkCount]
      · cases hbv : o.v_eof_block
        all_goals simp [hc, hv, ha, hsv, hsa, hbv, BackendEncoder.send_eof,
          vActE, aActE, vSigE, aSigE, trailersE, streamsE, vIQ, aIQ,
          videoFilterQueue, audioFilterQueue, sendOkCount]
      · cases hba : o.a_eof_block
        all_goals simp [hc, hv, ha, hsv, hsa, hba, BackendEncoder.send_eof,
          vActE, aActE, vSigE, aSigE, trailersE, streamsE, vIQ, aIQ,
          videoFilterQueue, audioFilterQueue, sendOkCount]
      · simp [hc, hv, ha, hsv, hsa, BackendEncoder.send_eof,
          vActE, aActE, vSigE, aSigE, trailersE, streamsE, vIQ, aIQ,
          videoFilterQueue, audioFilterQueue, sendOkCount]

/-! ## The flush check, by recorded-outcome pattern -/

theorem if_then_true_else_false (b : Bool) :
    (if b = true then true else false) = b := by
  cases b <;> simp

theorem flush_drain (o : IterOracle) (flag : Bool) (s : CollectedAVFfmpegEncoder) :
    (flushCheck o drainPattern flag s).exit_loop = true ∧
    (flushCheck o drainPattern flag s).eof_sends = [] ∧
    (flushCheck o drainPattern flag s).eof_was_sent = flag ∧
    (flushCheck o drainPattern flag s).trailer_written = s.ffmpeg_context.isSome ∧
    trailersE (flushCheck o drainPattern flag s).state =
      trailersE s + (if s.ffmpeg_context.isSome then 1 else 0) ∧
    (flushCheck o drainPattern flag s).state.receiver = s.receiver ∧
    (flushCheck o drainPattern flag s).state.is_ending = s.is_ending ∧
    (flushCheck o drainPattern flag s).state.ffmpeg_context.isSome =
      s.ffmpeg_context.isSome ∧
    vActE (flushCheck o drainPattern flag s).state = vActE s ∧
    aActE (flushCheck o drainPattern flag s).state = aActE s ∧
    vSigE (flushCheck o drainPattern flag s).state = vSigE s ∧
    aSigE (flushCheck o drainPattern flag s).state = aSigE s ∧
    streamsE (flushCheck o drainPattern flag s).state = streamsE s := by
  rcases hc : s.ffmpeg_context with _ | ctx <;>
    simp [flushCheck, drainPattern, hc, OutputContext.write_trailer, trailersE,
      vActE, aActE, vSigE, aSigE, streamsE]

theorem flush_other (o : IterOracle) {r : OperationResults} (flag : Bool)
    (s : CollectedAVFfmpegEncoder)
    (hr : r.r0 ≠ some FfErr.again ∨ r.r1 ≠ some FfErr.again) :
    flushCheck o r flag s = ⟨s, flag, false, false, []⟩ := by
  obtain ⟨r0, r1, r2, r3⟩ := r
  simp only [] at hr
  rcases r0 with _ | e0
  · simp [flushCheck]
  · cases e0
    · rcases r1 with _ | e1
      · simp [flushCheck]
      · cases e1
        · simp_all
        · simp [flushCheck]
    · simp [flushCheck]

theorem flush_send_flagged (o : IterOracle) {r : OperationResults}
    (s : CollectedAVFfmpegEncoder)
    (hr0 : r.r0 = some FfErr.again) (hr1 : r.r1 = some FfErr.again)
    (hne : ¬(r.r2 = some FfErr.eofErr ∧ r.r3 = some FfErr.eofErr)) :
    flushCheck o r true s = ⟨s, true, false, false, []⟩ := by
  obtain ⟨r0, r1, r2, r3⟩ := r
  simp only [] at hr0 hr1 hne
  subst hr0; subst hr1
  rcases r2 with _ | e2
  · rcases r3 with _ | e3
    · simp [flushCheck]
    · cases e3 <;> simp [flushCheck]
  · cases e2
    · rcases r3 with _ | e3
      · simp [flushCheck]
      · cases e3 <;> simp [flushCheck]
    · rcases r3 with _ | e3
      · simp [flushCheck]
      · cases e3
        · simp [flushCheck]
        · exact absurd ⟨rfl, rfl⟩ hne

theorem flush_send_unflagged (o : IterOracle) {r : OperationResults}
    (s : CollectedAVFfmpegEncoder)
    (hr0 : r.r0 = some FfErr.again) (hr1 : r.r1 = some FfErr.again)
    (hne : ¬(r.r2 = some FfErr.eofErr ∧ r.r3 = some FfErr.eofErr)) :
    flushCheck o r false s =
      ⟨(send_eof_to_encoders o s).1, (send_eof_to_encoders o s).2.1,
       false, false, (send_eof_to_encoders o s).2.2⟩ := by
  obtain ⟨r0, r1, r2, r3⟩ := r
  simp only [] at hr0 hr1 hne
  subst hr0; subst hr1
  rcases r2 with _ | e2
  · rcases r3 with _ | e3
    · simp [flushCheck, if_then_true_else_false]
    · cases e3 <;> simp [flushCheck, if_then_true_else_false]
  · cases e2
    · rcases r3 with _ | e3
      · simp [flushCheck, if_then_true_else_false]
      · cases e3 <;> simp [flushCheck, if_then_true_else_false]
    · rcases r3 with _ | e3
      · simp [flushCheck, if_then_true_else_false]
      · cases e3
        · simp [flushCheck, if_then_true_else_false]
        · exact absurd ⟨rfl, rfl⟩ hne

/-! ## Decomposition of one iteration -/

theorem iterate_decomp (o : IterOracle) (s : LoopState) :
    iterate o s = .abort ∨
    ∃ enc1 r enc2,
      ((s.enc.receiver = [] ∧ enc1 = s.enc) ∨
        (∃ f rest, s.enc.receiver = f :: rest ∧
          handle_frame { s.enc with receiver := rest } f = .ok enc1)) ∧
      runStages (s.ops_bound || s.enc.ffmpeg_context.isSome) o enc1 = some (r, enc2) ∧
      (((enc2.is_ending && enc2.receiver.isEmpty) = false ∧
        iterate o s = .cont
          ⟨enc2, s.ops_bound || s.enc.ffmpeg_context.isSome, s.eof_was_sent_to_encoders⟩
          ⟨enc2.is_ending, enc2.receiver.isEmpty, r, false,
            s.enc.ffmpeg_context.isNone && enc1.ffmpeg_context.isSome, []⟩) ∨
       ((enc2.is_ending && enc2.receiver.isEmpty) = true ∧
        iterate o s =
          if (flushCheck o r s.eof_was_sent_to_encoders enc2).exit_loop then
            IterResult.exit
              ⟨(flushCheck o r s.eof_was_sent_to_encoders enc2).state,
                s.ops_bound || s.enc.ffmpeg_context.isSome,
                (flushCheck o r s.eof_was_sent_to_encoders enc2).eof_was_sent⟩
              ⟨enc2.is_ending, enc2.receiver.isEmpty, r,
                (flushCheck o r s.eof_was_sent_to_encoders enc2).trailer_written,
                s.enc.ffmpeg_context.isNone && enc1.ffmpeg_context.isSome,
                (flushCheck o r s.eof_was_sent_to_encoders enc2).eof_sends⟩
          else
            IterResult.cont
              ⟨(flushCheck o r s.eof_was_sent_to_encoders enc2).state,
                s.ops_bound || s.enc.ffmpeg_context.isSome,
                (flushCheck o r s.eof_was_sent_to_encoders enc2).eof_was_sent⟩
              ⟨enc2.is_ending, enc2.receiver.isEmpty, r,
                (flushCheck o r s.eof_was_sent_to_encoders enc2).trailer_written,
                s.enc.ffmpeg_context.isNone && enc1.ffmpeg_context.isSome,
                (flushCheck o r s.eof_was_sent_to_encoders enc2).eof_sends⟩)) := by
  rcases hrecv : s.enc.receiver with _ | ⟨f, rest⟩
  · rcases hrs : runStages (s.ops_bound || s.enc.ffmpeg_context.isSome) o s.enc
      with _ | ⟨r, enc2⟩
    · left
      simp [iterate, hrecv, hrs]
    · right
      refine ⟨s.enc, r, enc2, Or.inl ⟨rfl, rfl⟩, hrs, ?_⟩
      rcases hgate : (enc2.is_ending && enc2.receiver.isEmpty)
      · left
        exact ⟨rfl, by simp [iterate, hrecv, hrs, hgate]⟩
      · right
        refine ⟨rfl, ?_⟩
        rcases hexit : (flushCheck o r s.eof_was_sent_to_encoders enc2).exit_loop
        · simp [iterate, hrecv, hrs, hgate, hexit]
        · simp [iterate, hrecv, hrs, hgate, hexit]
  · rcases hhf : handle_frame { s.enc with receiver := rest } f with enc1 | _
    · rcases hrs : runStages (s.ops_bound || s.enc.ffmpeg_context.isSome) o enc1
        with _ | ⟨r, enc2⟩
      · left
        simp [iterate, hrecv, hhf, hrs]
      · right
        refine ⟨enc1, r, enc2, Or.inr ⟨f, rest, rfl, hhf⟩, hrs, ?_⟩
        rcases hgate : (enc2.is_ending && enc2.receiver.isEmpty)
        · left
          exact ⟨rfl, by simp [iterate, hrecv, hhf, hrs, hgate]⟩
        · right
          refine ⟨rfl, ?_⟩
          rcases hexit : (flushCheck o r s.eof_was_sent_to_encoders enc2).exit_loop
          · simp [iterate, hrecv, hhf, hrs, hgate, hexit]
          · simp [iterate, hrecv, hhf, hrs, hgate, hexit]
    · left
      simp [iterate, hrecv, hhf]

/-! ## What one iteration guarantees, under every oracle -/

theorem iterate_facts {o : IterOracle} {s s' : LoopState} {ev : IterEvents}
    (h : iterate o s = .cont s' ev ∨ iterate o s = .exit s' ev) :
    IterFacts s s' ev := by
  rcases iterate_decomp o s with habort | ⟨enc1, r, enc2, hrecv, hrs, hrest⟩
  · rcases h with h | h <;> rw [habort] at h <;> cases h
  have H1 : vSigE enc1 = vSigE s.enc ∧ aSigE enc1 = aSigE s.enc ∧
      trailersE enc1 = trailersE s.enc ∧
      (s.enc.ffmpeg_context.isSome = true → enc1.ffmpeg_context.isSome = true) ∧
      (enc1.is_ending = true →
        s.enc.is_ending = true ∨ s.enc.ffmpeg_context.isSome = true) ∧
      (s.enc.ffmpeg_context.isSome = true →
        vActE enc1 = vActE s.enc ∧ aActE enc1 = aActE s.enc) := by
    rcases hrecv with ⟨-, rfl⟩ | ⟨f, rest, -, hhf⟩
    · exact ⟨rfl, rfl, rfl, fun h => h, fun h => Or.inl h, fun _ => ⟨rfl, rfl⟩⟩
    · obtain ⟨-, hsig, htr, hsome, hend, hact⟩ := handle_frame_inv hhf
      exact ⟨hsig.1, hsig.2, htr, hsome, hend,
        fun hx => ⟨(hact hx).1, (hact hx).2.1⟩⟩
  obtain ⟨h1v, h1a, h1tr, h1some, h1end, h1act⟩ := H1
  obtain ⟨h2recv, h2end, h2some, h2vact, h2aact, h2v, h2a, h2tr, h2str⟩ :=
    runStages_pres hrs
  rcases hrest with ⟨hgate, hiter⟩ | ⟨hgate, hiter⟩
  · -- stage loop done, flush gate closed: plain continuation
    rcases h with h | h
    · rw [hiter] at h
      cases h
      refine ⟨?_, ?_, ?_, ?_, ?_, ?_, ?_, ?_, ?_, ?_⟩
      · show enc2.ffmpeg_context.isSome = _
        rcases hc : s.enc.ffmpeg_context with _ | ctx
        · simp [h2some, hc]
        · have := h1some (by simp [hc])
          simp [h2some, hc, this]
      · intro hb
        simp only [Bool.and_eq_true, Option.isNone_iff_eq_none] at hb
        simp [hb.1]
      · simp [sendOkCount, h2v, h1v]
      · simp [sendOkCount, h2a, h1a]
      · intro hne
        exact absurd rfl hne
      · intro hf
        exact ⟨rfl, hf⟩
      · rintro ⟨p, hp, -⟩
        exact absurd hp (List.not_mem_nil p)
      · intro hne
        exact absurd rfl hne
      · simp [h2tr, h1tr]
      · rintro ⟨hJ1, hJ2, hJ3⟩
        refine ⟨?_, ?_, ?_⟩
        · intro hend2
          have he1 : enc1.is_ending = true := by rw [← h2end]; exact hend2
          rcases h1end he1 with hse | hsome
          · simp [hJ1 hse]
          · simp [hsome]
        · intro hob
          rcases (Bool.or_eq_true _ _) ▸ hob with hb | hb
          · exact h2some ▸ h1some (hJ2 hb)
          · exact h2some ▸ h1some hb
        · intro hf
          obtain ⟨hso, hv, ha⟩ := hJ3 hf
          have hact := h1act hso
          refine ⟨h2some ▸ h1some hso, ?_, ?_⟩
          · intro hva
            show vSigE enc2 = true
            rw [h2v, h1v]
            refine hv ?_
            have hva2 : vActE enc2 = true := hva
            rw [← hact.1, ← h2vact]
            exact hva2
          · intro haa
            show aSigE enc2 = true
            rw [h2a, h1a]
            refine ha ?_
            have haa2 : aActE enc2 = true := haa
            rw [← hact.2, ← h2aact]
            exact haa2
    · rw [hiter] at h
      cases h
  · -- flush path
    have hgate' := hgate
    simp only [Bool.and_eq_true] at hgate'
    obtain ⟨hg1, hg2⟩ := hgate'
    have hJe : ∀ _ : Jinv s, (s.ops_bound || s.enc.ffmpeg_context.isSome) = true := by
      rintro ⟨hJ1, hJ2, -⟩
      have he1 : enc1.is_ending = true := by rw [← h2end]; exact hg1
      rcases h1end he1 with hse | hsome
      · simp [hJ1 hse]
      · simp [hsome]
    rcases hexit : (flushCheck o r s.eof_was_sent_to_encoders enc2).exit_loop with _ | _
    all_goals simp only [hexit, Bool.false_eq_true, if_false, if_true] at hiter
    -- exit_loop = false: continuation after the flush check
    · rcases h with h | h
      · rw [hiter] at h
        cases h
        by_cases hd : r = drainPattern
        · exact absurd ((flush_drain o s.eof_was_sent_to_encoders enc2).1)
            (by rw [← hd, hexit]; simp)
        · by_cases h0 : r.r0 = some FfErr.again
          · by_cases h1 : r.r1 = some FfErr.again
            · have hne : ¬(r.r2 = some FfErr.eofErr ∧ r.r3 = some FfErr.eofErr) := by
                rintro ⟨h2, h3⟩
                apply hd
                obtain ⟨r0, r1, r2, r3⟩ := r
                simp only [] at h0 h1 h2 h3
                rw [h0, h1, h2, h3]
                rfl
              rcases hflag : s.eof_was_sent_to_encoders with _ | _
              · -- flag unset: a send round happens
                have heq := flush_send_unflagged o enc2 h0 h1 hne
                have hstate : (flushCheck o r false enc2).state =
                    (send_eof_to_encoders o enc2).1 := by rw [heq]
                have hfl : (flushCheck o r false enc2).eof_was_sent =
                    (send_eof_to_encoders o enc2).2.1 := by rw [heq]
                have hsends : (flushCheck o r false enc2).eof_sends =
                    (send_eof_to_encoders o enc2).2.2 := by rw [heq]
                have htw : (flushCheck o r false enc2).trailer_written = false := by
                  rw [heq]
                have hse := send_eof_spec o enc2
                obtain ⟨sr, se, ss, sva, saa, str, sstr, -, -, -, -, scv, sca,
                  ssucc, -, siff, smv, sma, -⟩ := hse
                rw [hstate, hfl, hsends, htw]
                refine ⟨?_, ?_, ?_, ?_, ?_, ?_, ?_, ?_, ?_, ?_⟩
                all_goals try dsimp only
                · rw [ss]
                  rcases hc : s.enc.ffmpeg_context with _ | ctx
                  · simp [h2some, hc]
                  · have := h1some (by simp [hc])
                    simp [h2some, hc, this]
                · intro hb
                  simp only [Bool.and_eq_true, Option.isNone_iff_eq_none] at hb
                  simp [hb.1]
                · rw [h2v, h1v] at scv
                  exact scv
                · rw [h2a, h1a] at sca
                  exact sca
                · intro _
                  exact ⟨hflag, hg1, hg2, h0, h1⟩
                · intro hff
                  simp [hflag] at hff
                · rintro ⟨p, hp, hpa⟩
                  rcases hsucc2 : (send_eof_to_encoders o enc2).2.1 with _ | _
                  · rfl
                  · exact absurd hpa ((siff.mp hsucc2) p hp)
                · intro hne2 hall
                  exact siff.mpr hall
                · rw [str, h2tr, h1tr]
                  simp
                · rintro ⟨hJ1, hJ2, hJ3⟩
                  have hob := hJe ⟨hJ1, hJ2, hJ3⟩
                  have hsome2 : enc2.ffmpeg_context.isSome = true := by
                    rcases (Bool.or_eq_true _ _) ▸ hob with hb | hb
                    · exact h2some ▸ h1some (hJ2 hb)
                    · exact h2some ▸ h1some hb
                  refine ⟨fun _ => hob, ?_, ?_⟩
                  · intro _
                    rw [ss]
                    exact hsome2
                  · intro hf2
                    obtain ⟨hcv, hca⟩ := ssucc hf2
                    refine ⟨by rw [ss]; exact hsome2, ?_, ?_⟩
                    · intro hva
                      refine hcv ?_
                      have hva2 : vActE (send_eof_to_encoders o enc2).1 = true := hva
                      rw [sva] at hva2
                      exact hva2
                    · intro haa
                      refine hca ?_
                      have haa2 : aActE (send_eof_to_encoders o enc2).1 = true := haa
                      rw [saa] at haa2
                      exact haa2
              · -- flag already set: nothing happens
                have heq := flush_send_flagged o enc2 h0 h1 hne
                have hstate : (flushCheck o r true enc2).state = enc2 := by rw [heq]
                have hfl : (flushCheck o r true enc2).eof_was_sent = true := by
                  rw [heq]
                have hsends : (flushCheck o r true enc2).eof_sends = [] := by rw [heq]
                have htw : (flushCheck o r true enc2).trailer_written = false := by
                  rw [heq]
                rw [hstate, hfl, hsends, htw]
                refine ⟨?_, ?_, ?_, ?_, ?_, ?_, ?_, ?_, ?_, ?_⟩
                all_goals try dsimp only
                · rcases hc : s.enc.ffmpeg_context with _ | ctx
                  · simp [h2some, hc]
                  · have := h1some (by simp [hc])
                    simp [h2some, hc, this]
                · intro hb
                  simp only [Bool.and_eq_true, Option.isNone_iff_eq_none] at hb
                  simp [hb.1]
                · simp [sendOkCount, h2v, h1v]
                · simp [sendOkCount, h2a, h1a]
                · intro hne2
                  exact absurd rfl hne2
                · intro _
                  exact ⟨rfl, rfl⟩
                · rintro ⟨p, hp, -⟩
                  exact absurd hp (List.not_mem_nil p)
                · intro hne2
                  exact absurd rfl hne2
                · simp [h2tr, h1tr]
                · rintro ⟨hJ1, hJ2, hJ3⟩
                  have hob := hJe ⟨hJ1, hJ2, hJ3⟩
                  have hsome2 : enc2.ffmpeg_context.isSome = true := by
                    rcases (Bool.or_eq_true _ _) ▸ hob with hb | hb
                    · exact h2some ▸ h1some (hJ2 hb)
                    · exact h2some ▸ h1some hb
                  refine ⟨fun _ => hob, fun _ => hsome2, ?_⟩
                  rintro -
                  obtain ⟨hso, hv, ha⟩ := hJ3 hflag
                  have hact := h1act hso
                  refine ⟨hsome2, ?_, ?_⟩
                  · intro hva
                    show vSigE enc2 = true
                    rw [h2v, h1v]
                    refine hv ?_
                    have hva2 : vActE enc2 = true := hva
                    rw [← hact.1, ← h2vact]
                    exact hva2
                  · intro haa
                    show aSigE enc2 = true
                    rw [h2a, h1a]
                    refine ha ?_
                    have haa2 : aActE enc2 = true := haa
                    rw [← hact.2, ← h2aact]
                    exact haa2
            · -- r1 is not WouldBlock
              have heq := flush_other o s.eof_was_sent_to_encoders enc2 (Or.inr h1)
              have hstate : (flushCheck o r s.eof_was_sent_to_encoders enc2).state =
                  enc2 := by rw [heq]
              have hfl : (flushCheck o r s.eof_was_sent_to_encoders enc2).eof_was_sent =
                  s.eof_was_sent_to_encoders := by rw [heq]
              have hsends : (flushCheck o r s.eof_was_sent_to_encoders enc2).eof_sends =
                  [] := by rw [heq]
              have htw :
                  (flushCheck o r s.eof_was_sent_to_encoders enc2).trailer_written =
                  false := by rw [heq]
              rw [hstate, hfl, hsends, htw]
              refine ⟨?_, ?_, ?_, ?_, ?_, ?_, ?_, ?_, ?_, ?_⟩
              all_goals try dsimp only
              · rcases hc : s.enc.ffmpeg_context with _ | ctx
                · simp [h2some, hc]
                · have := h1some (by simp [hc])
                  simp [h2some, hc, this]
              · intro hb
                simp only [Bool.and_eq_true, Option.isNone_iff_eq_none] at hb
                simp [hb.1]
              · simp [sendOkCount, h2v, h1v]
              · simp [sendOkCount, h2a, h1a]
              · intro hne2
                exact absurd rfl hne2
              · intro hf
                exact ⟨rfl, hf⟩
              · rintro ⟨p, hp, -⟩
                exact absurd hp (List.not_mem_nil p)
              · intro hne2
                exact absurd rfl hne2
              · simp [h2tr, h1tr]
              · rintro ⟨hJ1, hJ2, hJ3⟩
                have hob := hJe ⟨hJ1, hJ2, hJ3⟩
                have hsome2 : enc2.ffmpeg_context.isSome = true := by
                  rcases (Bool.or_eq_true _ _) ▸ hob with hb | hb
                  · exact h2some ▸ h1some (hJ2 hb)
                  · exact h2some ▸ h1some hb
                refine ⟨fun _ => hob, fun _ => hsome2, ?_⟩
                intro hf
                obtain ⟨hso, hv, ha⟩ := hJ3 hf
                have hact := h1act hso
                refine ⟨hsome2, ?_, ?_⟩
                · intro hva
                  show vSigE enc2 = true
                  rw [h2v, h1v]
                  refine hv ?_
                  have hva2 : vActE enc2 = true := hva
                  rw [← hact.1, ← h2vact]
                  exact hva2
                · intro haa
                  show aSigE enc2 = true
                  rw [h2a, h1a]
                  refine ha ?_
                  have haa2 : aActE enc2 = true := haa
                  rw [← hact.2, ← h2aact]
                  exact haa2
          · -- r0 is not WouldBlock: the check does nothing
            have heq := flush_other o s.eof_was_sent_to_encoders enc2 (Or.inl h0)
            have hstate : (flushCheck o r s.eof_was_sent_to_encoders enc2).state =
                enc2 := by rw [heq]
            have hfl : (flushCheck o r s.eof_was_sent_to_encoders enc2).eof_was_sent =
                s.eof_was_sent_to_encoders := by rw [heq]
            have hsends : (flushCheck o r s.eof_was_sent_to_encoders enc2).eof_sends =
                [] := by rw [heq]
            have htw :
                (flushCheck o r s.eof_was_sent_to_encoders enc2).trailer_written =
                false := by rw [heq]
            rw [hstate, hfl, hsends, htw]
            refine ⟨?_, ?_, ?_, ?_, ?_, ?_, ?_, ?_, ?_, ?_⟩
            all_goals try dsimp only
            · rcases hc : s.enc.ffmpeg_context with _ | ctx
              · simp [h2some, hc]
              · have := h1some (by simp [hc])
                simp [h2some, hc, this]
            · intro hb
              simp only [Bool.and_eq_true, Option.isNone_iff_eq_none] at hb
              simp [hb.1]
            · simp [sendOkCount, h2v, h1v]
            · simp [sendOkCount, h2a, h1a]
            · intro hne2
              exact absurd rfl hne2
            · intro hf
              exact ⟨rfl, hf⟩
            · rintro ⟨p, hp, -⟩
              exact absurd hp (List.not_mem_nil p)
            · intro hne2
              exact absurd rfl hne2
            · simp [h2tr, h1tr]
            · rintro ⟨hJ1, hJ2, hJ3⟩
              have hob := hJe ⟨hJ1, hJ2, hJ3⟩
              have hsome2 : enc2.ffmpeg_context.isSome = true := by
                rcases (Bool.or_eq_true _ _) ▸ hob with hb | hb
                · exact h2some ▸ h1some (hJ2 hb)
                · exact h2some ▸ h1some hb
              refine ⟨fun _ => hob, fun _ => hsome2, ?_⟩
              intro hf
              obtain ⟨hso, hv, ha⟩ := hJ3 hf
              have hact := h1act hso
              refine ⟨hsome2, ?_, ?_⟩
              · intro hva
                show vSigE enc2 = true
                rw [h2v, h1v]
                refine hv ?_
                have hva2 : vActE enc2 = true := hva
                rw [← hact.1, ← h2vact]
                exact hva2
              · intro haa
                show aSigE enc2 = true
                rw [h2a, h1a]
                refine ha ?_
                have haa2 : aActE enc2 = true := haa
                rw [← hact.2, ← h2aact]
                exact haa2
      · rw [hiter] at h
        cases h
    -- exit_loop = true: trailer branch
    · rcases h with h | h
      · rw [hiter] at h
        cases h
      · rw [hiter] at h
        cases h
        have hd : r = drainPattern := by
          by_cases hd : r = drainPattern
          · exact hd
          · by_cases h0 : r.r0 = some FfErr.again
            · by_cases h1 : r.r1 = some FfErr.again
              · have hne : ¬(r.r2 = some FfErr.eofErr ∧ r.r3 = some FfErr.eofErr) := by
                  rintro ⟨h2, h3⟩
                  apply hd
                  obtain ⟨r0, r1, r2, r3⟩ := r
                  simp only [] at h0 h1 h2 h3
                  rw [h0, h1, h2, h3]
                  rfl
                rcases hflag : s.eof_was_sent_to_encoders with _ | _
                · have heq := flush_send_unflagged o enc2 h0 h1 hne
                  rw [hflag] at hexit
                  rw [heq] at hexit
                  cases hexit
                · have heq := flush_send_flagged o enc2 h0 h1 hne
                  rw [hflag] at hexit
                  rw [heq] at hexit
                  cases hexit
              · have heq := flush_other o s.eof_was_sent_to_encoders enc2 (Or.inr h1)
                rw [heq] at hexit
                cases hexit
            · have heq := flush_other o s.eof_was_sent_to_encoders enc2 (Or.inl h0)
              rw [heq] at hexit
              cases hexit
        subst hd
        obtain ⟨-, fse, ffl, ftw, ftr, frecv, fend, fsome, fva, faa, fv, fa, fstr⟩ :=
          flush_drain o s.eof_was_sent_to_encoders enc2
        rw [fse, ffl, ftw]
        refine ⟨?_, ?_, ?_, ?_, ?_, ?_, ?_, ?_, ?_, ?_⟩
        all_goals try dsimp only
        · rw [fsome]
          rcases hc : s.enc.ffmpeg_context with _ | ctx
          · simp [h2some, hc]
          · have := h1some (by simp [hc])
            simp [h2some, hc, this]
        · intro hb
          simp only [Bool.and_eq_true, Option.isNone_iff_eq_none] at hb
          simp [hb.1]
        · simp only [sendOkCount, List.filter_nil, List.length_nil, Nat.zero_add]
          rw [fv, h2v, h1v]
        · simp only [sendOkCount, List.filter_nil, List.length_nil, Nat.zero_add]
          rw [fa, h2a, h1a]
        · intro hne2
          exact absurd rfl hne2
        · intro hf
          exact ⟨rfl, hf⟩
        · rintro ⟨p, hp, -⟩
          exact absurd hp (List.not_mem_nil p)
        · intro hne2
          exact absurd rfl hne2
        · rw [ftr, h2tr, h1tr]
        · rintro ⟨hJ1, hJ2, hJ3⟩
          have hob := hJe ⟨hJ1, hJ2, hJ3⟩
          have hsome2 : enc2.ffmpeg_context.isSome = true := by
            rcases (Bool.or_eq_true _ _) ▸ hob with hb | hb
            · exact h2some ▸ h1some (hJ2 hb)
            · exact h2some ▸ h1some hb
          refine ⟨fun _ => hob, fun _ => by rw [fsome]; exact hsome2, ?_⟩
          intro hf
          obtain ⟨hso, hv, ha⟩ := hJ3 hf
          have hact := h1act hso
          refine ⟨by rw [fsome]; exact hsome2, ?_, ?_⟩
          · intro hva
            rw [fv, h2v, h1v]
            refine hv ?_
            have hva2 := hva
            rw [fva] at hva2
            have hva3 : vActE enc2 = true := hva2
            rw [← hact.1, ← h2vact]
            exact hva3
          · intro haa
            rw [fa, h2a, h1a]
            refine ha ?_
            have haa2 := haa
            rw [faa] at haa2
            have haa3 : aActE enc2 = true := haa2
            rw [← hact.2, ← h2aact]
            exact haa3

/-! ## Exit characterization -/

theorem videoBound_eq (b : Bool) (s : CollectedAVFfmpegEncoder) :
    videoBound b s = (b && vActE s) := rfl

theorem audioBound_eq (b : Bool) (s : CollectedAVFfmpegEncoder) :
    audioBound b s = (b && aActE s) := rfl

theorem flush_exit_drain {o : IterOracle} {r : OperationResults} {flag : Bool}
    {s : CollectedAVFfmpegEncoder}
    (h : (flushCheck o r flag s).exit_loop = true) : r = drainPattern := by
  by_cases hd : r = drainPattern
  · exact hd
  · by_cases h0 : r.r0 = some FfErr.again
    · by_cases h1 : r.r1 = some FfErr.again
      · have hne : ¬(r.r2 = some FfErr.eofErr ∧ r.r3 = some FfErr.eofErr) := by
          rintro ⟨h2, h3⟩
          apply hd
          obtain ⟨r0, r1, r2, r3⟩ := r
          simp only [] at h0 h1 h2 h3
          rw [h0, h1, h2, h3]
          rfl
        cases flag
        · simp [flush_send_unflagged o s h0 h1 hne] at h
        · simp [flush_send_flagged o s h0 h1 hne] at h
      · simp [flush_other o flag s (Or.inr h1)] at h
    · simp [flush_other o flag s (Or.inl h0)] at h

theorem iterate_exit_char {o : IterOracle} {s s' : LoopState} {ev : IterEvents}
    (h : iterate o s = .exit s' ev) :
    ev.results = drainPattern ∧ ev.draining = true ∧ ev.queue_empty = true ∧
    ev.eof_sends = [] ∧ ev.trailer_written = s'.enc.ffmpeg_context.isSome ∧
    (Jinv s → ev.trailer_written = true) ∧
    (Jinv s →
      (vActE s'.enc = true → vSigE s'.enc = true) ∧
      (aActE s'.enc = true → aSigE s'.enc = true)) := by
  rcases iterate_decomp o s with habort | ⟨enc1, r, enc2, hrecv, hrs, hrest⟩
  · rw [habort] at h; cases h
  have H1 : vSigE enc1 = vSigE s.enc ∧ aSigE enc1 = aSigE s.enc ∧
      (s.enc.ffmpeg_context.isSome = true → enc1.ffmpeg_context.isSome = true) ∧
      (enc1.is_ending = true →
        s.enc.is_ending = true ∨ s.enc.ffmpeg_context.isSome = true) := by
    rcases hrecv with ⟨-, rfl⟩ | ⟨f, rest, -, hhf⟩
    · exact ⟨rfl, rfl, fun h => h, fun h => Or.inl h⟩
    · obtain ⟨-, hsig, -, hsome, hend, -⟩ := handle_frame_inv hhf
      exact ⟨hsig.1, hsig.2, hsome, hend⟩
  obtain ⟨h1v, h1a, h1some, h1end⟩ := H1
  obtain ⟨h2recv, h2end, h2some, h2vact, h2aact, h2v, h2a, h2tr, h2str⟩ :=
    runStages_pres hrs
  rcases hrest with ⟨hgate, hiter⟩ | ⟨hgate, hiter⟩
  · rw [hiter] at h; cases h
  have hgate' := hgate
  simp only [Bool.and_eq_true] at hgate'
  obtain ⟨hg1, hg2⟩ := hgate'
  rcases hexit : (flushCheck o r s.eof_was_sent_to_encoders enc2).exit_loop with _ | _
  all_goals simp only [hexit, Bool.false_eq_true, if_false, if_true] at hiter
  · rw [hiter] at h; cases h
  · rw [hiter] at h
    cases h
    have hd : r = drainPattern := flush_exit_drain hexit
    subst hd
    obtain ⟨-, fse, ffl, ftw, ftr, frecv, fend, fsome, fva, faa, fv, fa, fstr⟩ :=
      flush_drain o s.eof_was_sent_to_encoders enc2
    refine ⟨rfl, hg1, hg2, fse, ?_, ?_, ?_⟩
    · rw [ftw, fsome]
    · rintro ⟨hJ1, hJ2, -⟩
      rw [ftw]
      have he1 : enc1.is_ending = true := by rw [← h2end]; exact hg1
      have hsomePre : s.enc.ffmpeg_context.isSome = true := by
        rcases h1end he1 with hse | hsome
        · exact hJ2 (hJ1 hse)
        · exact hsome
      rw [h2some]
      exact h1some hsomePre
    · rintro ⟨hJ1, hJ2, -⟩
      have hb : (s.ops_bound || s.enc.ffmpeg_context.isSome) = true := by
        have he1 : enc1.is_ending = true := by rw [← h2end]; exact hg1
        rcases h1end he1 with hse | hsome
        · simp [hJ1 hse]
        · simp [hsome]
      constructor
      · intro hva
        have hva2 : vActE enc2 = true := by rw [← fva]; exact hva
        have hva1 : vActE enc1 = true := by rw [← h2vact]; exact hva2
        have hr2 : videoBound (s.ops_bound || s.enc.ffmpeg_context.isSome) enc1 =
            false ∨ vSigE enc1 = true := runStages_r2 hrs rfl
        rcases hr2 with hfalse | hsig
        · rw [videoBound_eq, hb, hva1] at hfalse
          cases hfalse
        · show vSigE (flushCheck _ _ _ _).state = true
          rw [fv, h2v]
          exact hsig
      · intro haa
        have haa2 : aActE enc2 = true := by rw [← faa]; exact haa
        have haa1 : aActE enc1 = true := by rw [← h2aact]; exact haa2
        have hr3 : audioBound (s.ops_bound || s.enc.ffmpeg_context.isSome) enc1 =
            false ∨ aSigE enc1 = true := runStages_r3 hrs rfl
        rcases hr3 with hfalse | hsig
        · rw [audioBound_eq, hb, haa1] at hfalse
          cases hfalse
        · show aSigE (flushCheck _ _ _ _).state = true
          rw [fa, h2a]
          exact hsig

theorem iterate_cont_trailer {o : IterOracle} {s s' : LoopState} {ev : IterEvents}
    (h : iterate o s = .cont s' ev) : ev.trailer_written = false := by
  rcases iterate_decomp o s with habort | ⟨enc1, r, enc2, hrecv, hrs, hrest⟩
  · rw [habort] at h; cases h
  rcases hrest with ⟨hgate, hiter⟩ | ⟨hgate, hiter⟩
  · rw [hiter] at h; cases h; rfl
  rcases hexit : (flushCheck o r s.eof_was_sent_to_encoders enc2).exit_loop with _ | _
  all_goals simp only [hexit, Bool.false_eq_true, if_false, if_true] at hiter
  · rw [hiter] at h
    cases h
    show (flushCheck o r s.eof_was_sent_to_encoders enc2).trailer_written = false
    by_cases hd : r = drainPattern
    · exact absurd ((hd ▸ flush_drain o s.eof_was_sent_to_encoders enc2).1)
        (by rw [hexit]; simp)
    · by_cases h0 : r.r0 = some FfErr.again
      · by_cases h1 : r.r1 = some FfErr.again
        · have hne : ¬(r.r2 = some FfErr.eofErr ∧ r.r3 = some FfErr.eofErr) := by
            rintro ⟨h2, h3⟩
            apply hd
            obtain ⟨r0, r1, r2, r3⟩ := r
            simp only [] at h0 h1 h2 h3
            rw [h0, h1, h2, h3]
            rfl
          rcases hflag : s.eof_was_sent_to_encoders with _ | _
          · rw [flush_send_unflagged o enc2 h0 h1 hne]
          · rw [flush_send_flagged o enc2 h0 h1 hne]
        · rw [flush_other o s.eof_was_sent_to_encoders enc2 (Or.inr h1)]
      · rw [flush_other o s.eof_was_sent_to_encoders enc2 (Or.inl h0)]
  · rw [hiter] at h; cases h

/-! ## Run-level accounting -/

theorem eofOkCount_nil (k : StreamKind) : eofOkCount [] k = 0 := rfl

theorem eofOkCount_cons (ev : IterEvents) (evs : List IterEvents) (k : StreamKind) :
    eofOkCount (ev :: evs) k = sendOkCount ev.eof_sends k + eofOkCount evs k := by
  simp [eofOkCount, sendOkCount, List.filter_append]

theorem buildCount_cons (ev : IterEvents) (evs : List IterEvents) :
    buildCount (ev :: evs) =
      (if ev.session_built then 1 else 0) + buildCount evs := by
  cases hb : ev.session_built <;>
    simp [buildCount, List.filter_cons, hb] <;> omega

theorem trailerEvents_cons (ev : IterEvents) (evs : List IterEvents) :
    trailerEvents (ev :: evs) =
      (if ev.trailer_written then 1 else 0) + trailerEvents evs := by
  cases hb : ev.trailer_written <;>
    simp [trailerEvents, List.filter_cons, hb] <;> omega

theorem runFrom_build (ora : Nat → IterOracle) :
    ∀ (fuel k : Nat) (s : LoopState),
      buildCount (runFrom ora k fuel s).2 ≤
        (if s.enc.ffmpeg_context.isSome then 0 else 1) := by
  intro fuel
  induction fuel with
  | zero =>
    intro k s
    simp [runFrom, buildCount]
  | succ fuel ih =>
    intro k s
    rcases hit : iterate (ora k) s with ⟨s', ev⟩ | ⟨s', ev⟩ | _
    · obtain ⟨f1, f2, -⟩ := iterate_facts (Or.inl hit)
      have hrec := ih (k + 1) s'
      simp only [runFrom, hit]
      rw [buildCount_cons]
      rcases hb : ev.session_built with _ | _
      · rw [hb, Bool.or_false] at f1
        rw [f1] at hrec
        simp only [hb, Bool.false_eq_true, if_false]
        omega
      · have hcf : s.enc.ffmpeg_context.isSome = false := f2 hb
        rw [hb, Bool.or_true] at f1
        rw [f1] at hrec
        simp only [hb, if_true, hcf, Bool.false_eq_true, if_false]
        simp only [if_true] at hrec
        omega
    · obtain ⟨f1, f2, -⟩ := iterate_facts (Or.inr hit)
      simp only [runFrom, hit]
      rw [buildCount_cons]
      rcases hb : ev.session_built with _ | _
      · simp [buildCount, hb]
      · have hcf := f2 hb
        simp [buildCount, hb, hcf]
    · simp [runFrom, hit, buildCount]

theorem runFrom_okCount (ora : Nat → IterOracle) :
    ∀ (fuel k : Nat) (s sf : LoopState) (evs : List IterEvents),
      runFrom ora k fuel s = (.finished sf, evs) →
      (eofOkCount evs StreamKind.video + (if vSigE s.enc then 1 else 0) =
        (if vSigE sf.enc then 1 else 0)) ∧
      (eofOkCount evs StreamKind.audio + (if aSigE s.enc then 1 else 0) =
        (if aSigE sf.enc then 1 else 0)) ∧
      (Jinv s → Jinv sf) ∧
      (Jinv s →
        (vActE sf.enc = true → vSigE sf.enc = true) ∧
        (aActE sf.enc = true → aSigE sf.enc = true)) := by
  intro fuel
  induction fuel with
  | zero =>
    intro k s sf evs h
    simp [runFrom] at h
  | succ fuel ih =>
    intro k s sf evs h
    rcases hit : iterate (ora k) s with ⟨s', ev⟩ | ⟨s', ev⟩ | _
    · simp only [runFrom, hit] at h
      rcases hrest : runFrom ora (k + 1) fuel s' with ⟨res, evs'⟩
      rw [hrest] at h
      dsimp only at h
      cases h
      obtain ⟨-, -, f3, f4, -, -, -, -, -, f10⟩ := iterate_facts (Or.inl hit)
      obtain ⟨g1, g2, g3, g4⟩ := ih (k + 1) s' sf evs' hrest
      refine ⟨?_, ?_, fun hJ => g3 (f10 hJ), fun hJ => g4 (f10 hJ)⟩
      · rw [eofOkCount_cons]
        omega
      · rw [eofOkCount_cons]
        omega
    · simp only [runFrom, hit] at h
      cases h
      obtain ⟨-, -, f3, f4, -, -, -, -, -, f10⟩ := iterate_facts (Or.inr hit)
      obtain ⟨-, -, -, -, -, -, hJ6⟩ := iterate_exit_char hit
      refine ⟨?_, ?_, f10, hJ6⟩
      · rw [eofOkCount_cons, eofOkCount_nil]
        omega
      · rw [eofOkCount_cons, eofOkCount_nil]
        omega
    · simp [runFrom, hit] at h

/-! ## Claim theorems C2, C4, C5, C6 -/

/-- C2: in every iteration of the worker loop, the worker signals
end-of-stream to an encoder only when that same iteration is draining
(`End` was observed), the input queue is empty, and both filter-pull slots
recorded `WouldBlock`; since a filter-pull slot that made forward progress
records no outcome at all, no encoder receives end-of-stream in an
iteration where either filter-pull succeeded. -/
theorem c2_eos_gated_on_drain (o : IterOracle) (s s' : LoopState) (ev : IterEvents)
    (h : iterate o s = IterResult.cont s' ev ∨ iterate o s = IterResult.exit s' ev)
    (hne : ev.eof_sends ≠ []) :
    ev.draining = true ∧ ev.queue_empty = true ∧
    ev.results.r0 = some FfErr.again ∧ ev.results.r1 = some FfErr.again := by
  obtain ⟨-, -, -, -, f5, -⟩ := iterate_facts h
  obtain ⟨-, h1, h2, h3, h4⟩ := f5 hne
  exact ⟨h1, h2, h3, h4⟩

theorem c2_witness :
    (iterate idealOracle exFlushState = IterResult.cont exC2State exC2Ev ∨
      iterate idealOracle exFlushState = IterResult.exit exC2State exC2Ev) ∧
    exC2Ev.eof_sends ≠ [] ∧
    (exC2Ev.draining = true ∧ exC2Ev.queue_empty = true ∧
     exC2Ev.results.r0 = some FfErr.again ∧ exC2Ev.results.r1 = some FfErr.again) :=
  ⟨Or.inl (by decide), by decide,
   c2_eos_gated_on_drain idealOracle exFlushState exC2State exC2Ev
     (Or.inl (by decide)) (by decide)⟩

/-- C4 counterexample: with a video-only session and a frame buffered in
the video filter graph, slot 0 succeeds, so the recorded outcome row is
`(None, None, None, None)`: slot 1 is an unbound filter-pull slot yet its
recorded outcome is not `WouldBlock`, and the unbound slot 3 records no
`Eof`, contradicting "every stage not attempted still records an
outcome". -/
theorem c4_counterexample :
    audioBound true exDrainEnc = false ∧
    (runStages true idealOracle exDrainEnc).map Prod.fst =
      some ⟨none, none, none, none⟩ := by
  decide

/-- C4 (amended): the four stage slots are evaluated in the fixed order
video-filter-pull, audio-filter-pull, video-encode-write,
audio-encode-write, stopping at the first success; a slot evaluated before
the first success records its non-success outcome, with an unbound
filter-pull slot recording `WouldBlock` and an unbound encode-write slot
recording `Eof`, but the succeeding slot and every slot after it record
nothing (`none`) for that iteration. -/
theorem c4_stage_order_and_placeholders :
    (∀ (b : Bool) (o : IterOracle) (s : CollectedAVFfmpegEncoder),
      videoBound b s = false →
        step0 b o s = StageStep.err FfErr.again ∧
        step2 b o s = StageStep.err FfErr.eofErr) ∧
    (∀ (b : Bool) (o : IterOracle) (s : CollectedAVFfmpegEncoder),
      audioBound b s = false →
        step1 b o s = StageStep.err FfErr.again ∧
        step3 b o s = StageStep.err FfErr.eofErr) ∧
    (∀ (b : Bool) (o : IterOracle) (s : CollectedAVFfmpegEncoder)
        (r : OperationResults) (s' : CollectedAVFfmpegEncoder),
      runStages b o s = some (r, s') →
      (step0 b o s = StageStep.success s' ∧ r = ⟨none, none, none, none⟩) ∨
      (∃ e0, step0 b o s = StageStep.err e0 ∧ step1 b o s = StageStep.success s' ∧
        r = ⟨some e0, none, none, none⟩) ∨
      (∃ e0 e1, step0 b o s = StageStep.err e0 ∧ step1 b o s = StageStep.err e1 ∧
        step2 b o s = StageStep.success s' ∧ r = ⟨some e0, some e1, none, none⟩) ∨
      (∃ e0 e1 e2, step0 b o s = StageStep.err e0 ∧ step1 b o s = StageStep.err e1 ∧
        step2 b o s = StageStep.err e2 ∧ step3 b o s = StageStep.success s' ∧
        r = ⟨some e0, some e1, some e2, none⟩) ∨
      (∃ e0 e1 e2 e3, step0 b o s = StageStep.err e0 ∧ step1 b o s = StageStep.err e1 ∧
        step2 b o s = StageStep.err e2 ∧ step3 b o s = StageStep.err e3 ∧
        s' = s ∧ r = ⟨some e0, some e1, some e2, some e3⟩)) := by
  refine ⟨?_, ?_, ?_⟩
  · intro b o s h
    constructor
    · unfold step0
      rw [h]
      simp
    · unfold step2
      rw [h]
      simp
  · intro b o s h
    constructor
    · unfold step1
      rw [h]
      simp
    · unfold step3
      rw [h]
      simp
  · intro b o s r s' h
    unfold runStages at h
    repeat' split at h
    all_goals cases h
    · exact Or.inl ⟨by assumption, rfl⟩
    · exact Or.inr (Or.inl ⟨_, by assumption, by assumption, rfl⟩)
    · exact Or.inr (Or.inr (Or.inl
        ⟨_, _, by assumption, by assumption, by assumption, rfl⟩))
    · exact Or.inr (Or.inr (Or.inr (Or.inl
        ⟨_, _, _, by assumption, by assumption, by assumption, by assumption, rfl⟩)))
    · exact Or.inr (Or.inr (Or.inr (Or.inr
        ⟨_, _, _, _, by assumption, by assumption, by assumption, by assumption,
         rfl, rfl⟩)))

theorem c4_witness :
    step1 true idealOracle exDrainEnc = StageStep.err FfErr.again ∧
    step3 true idealOracle exDrainEnc = StageStep.err FfErr.eofErr :=
  c4_stage_order_and_placeholders.2.1 true idealOracle exDrainEnc (by decide)

/-- C5 counterexample: a `Video` frame dispatched on an uninitialized
session, and one dispatched on an audio-only session, both hit the
`panic!("unhandled case")` arm — the pipeline aborts rather than rejecting
the frame as a structured outcome. -/
theorem c5_counterexample :
    handle_frame exUninit ⟨FrameData.video ⟨[], 0, 0, 0⟩, 0⟩ = HandleResult.panicked ∧
    handle_frame exAudioLoaded ⟨FrameData.video ⟨[], 0, 0, 0⟩, 0⟩ = HandleResult.panicked := by
  decide

/-- C5 (amended): for every `Video` frame handled while the session is
uninitialized, or while the session was configured audio-only, `handle_frame`
panics (`panic!("unhandled case")`), aborting the worker — the frame is not
rejected as a structured outcome. -/
theorem c5_video_frame_panics (s : CollectedAVFfmpegEncoder) (vp : VideoPlane) (n : Nat)
    (h : s.ffmpeg_context = none ∨
      ∃ ctx, s.ffmpeg_context = some ctx ∧ ctx.video = none) :
    handle_frame s ⟨FrameData.video vp, n⟩ = HandleResult.panicked := by
  rcases h with hc | ⟨ctx, hc, hv⟩
  · simp [handle_frame, hc]
  · simp [handle_frame, hc, hv]

theorem c5_witness :
    (exUninit.ffmpeg_context = none ∨
      ∃ ctx, exUninit.ffmpeg_context = some ctx ∧ ctx.video = none) ∧
    handle_frame exUninit ⟨FrameData.video ⟨[], 0, 0, 0⟩, 0⟩ = HandleResult.panicked :=
  ⟨Or.inl rfl, c5_video_frame_panics exUninit ⟨[], 0, 0, 0⟩ 0 (Or.inl rfl)⟩

/-- C6: a `Configure` frame handled while a session already exists leaves
the worker state unchanged apart from appending the logged rejection (no
second session is created and the existing session is not replaced); and
over any run of the worker loop, under any oracle and from any start state,
a session is built at most once. -/
theorem c6_configure_once :
    (∀ (s : CollectedAVFfmpegEncoder) (ctx : FfmpegContext) (args : OutputArgs) (n : Nat),
      s.ffmpeg_context = some ctx →
      handle_frame s ⟨FrameData.configure args, n⟩ =
        HandleResult.ok { s with
          log := s.log ++ [(LogSources.sink, LogMsg.rejectedConfigure n)] }) ∧
    (∀ (ora : Nat → IterOracle) (fuel k : Nat) (s : LoopState),
      buildCount (runFrom ora k fuel s).2 ≤
        (if s.enc.ffmpeg_context.isSome then 0 else 1)) := by
  constructor
  · intro s ctx args n hc
    exact handle_configure_some hc
  · intro ora fuel k s
    exact runFrom_build ora fuel k s

theorem c6_witness :
    handle_frame exFlushEnc ⟨FrameData.configure (OutputArgs.video exVideoArgs), 5⟩ =
      HandleResult.ok { exFlushEnc with
        log := exFlushEnc.log ++ [(LogSources.sink, LogMsg.rejectedConfigure 5)] } ∧
    buildCount (runFrom idealRun 0 5 (initLoopState exInput)).2 ≤
      (if (initLoopState exInput).enc.ffmpeg_context.isSome then 0 else 1) :=
  ⟨c6_configure_once.1 exFlushEnc (FfmpegContext.new (OutputArgs.video exVideoArgs))
     (OutputArgs.video exVideoArgs) 5 rfl,
   c6_configure_once.2 idealRun 5 0 (initLoopState exInput)⟩

/-! ## Claim theorems C9 and C10 -/

/-- C9: every media frame is stamped with its source sequence number as
presentation time when pushed into its filter graph; a retrieved video
packet keeps that pts and is rescaled from the 1/fps time base to the
container stream's declared time base before being written; a retrieved
audio packet is written with the pts unchanged, with no rescaling. -/
theorem c9_pts_stamping :
    (∀ (s : CollectedAVFfmpegEncoder) (ctx : FfmpegContext)
        (vc : FfmpegVideoContext) (vp : VideoPlane) (n : Nat),
      s.ffmpeg_context = some ctx → ctx.video = some vc →
      (handle_frame s ⟨FrameData.video vp, n⟩).okState.map videoFilterQueue =
        some (videoFilterQueue s ++ [(n : Int)])) ∧
    (∀ (s : CollectedAVFfmpegEncoder) (ctx : FfmpegContext)
        (ac : FfmpegAudioContext) (ap : AudioPlane) (n : Nat),
      s.ffmpeg_context = some ctx → ctx.audio = some ac →
      (handle_frame s ⟨FrameData.audio ap, n⟩).okState.map audioFilterQueue =
        some (audioFilterQueue s ++ [(n : Int)])) ∧
    (∀ (o : IterOracle) (s : CollectedAVFfmpegEncoder) (ctx : FfmpegContext)
        (vc : FfmpegVideoContext) (pts : Int) (rest : List Int) (st0 : OStream),
      s.ffmpeg_context = some ctx → ctx.video = some vc →
      vc.encoder.in_queue = pts :: rest → o.v_recv_block = false →
      ctx.octx.stream 0 = some st0 →
      (write_encoded_video_packet o s).okState.map writtenPackets =
        some (writtenPackets s ++
          [Packet.rescale_ts ⟨0, pts⟩ ⟨1, (vc.args.fps : Int)⟩ st0.time_base])) ∧
    (∀ (o : IterOracle) (s : CollectedAVFfmpegEncoder) (ctx : FfmpegContext)
        (ac : FfmpegAudioContext) (pts : Int) (rest : List Int),
      s.ffmpeg_context = some ctx → ctx.audio = some ac →
      ac.encoder.in_queue = pts :: rest → o.a_recv_block = false →
      (write_encoded_audio_packet o s).okState.map writtenPackets =
        some (writtenPackets s ++ [⟨1, pts⟩])) := by
  refine ⟨?_, ?_, ?_, ?_⟩
  · intro s ctx vc vp n hc hv
    rw [handle_video hc hv]
    simp [HandleResult.okState, videoFilterQueue, hc, hv, FilterGraph.push]
  · intro s ctx ac ap n hc ha
    rw [handle_audio hc ha]
    simp [HandleResult.okState, audioFilterQueue, hc, ha, FilterGraph.push]
  · intro o s ctx vc pts rest st0 hc hv hq hblk hst
    unfold write_encoded_video_packet
    simp only [hc, hv, BackendEncoder.receive_packet, hq, hblk, Bool.false_eq_true,
      if_false, hst]
    simp [StageStep.okState, writtenPackets, hc, OutputContext.write_interleaved]
  · intro o s ctx ac pts rest hc ha hq hblk
    unfold write_encoded_audio_packet
    simp only [hc, ha, BackendEncoder.receive_packet, hq, hblk, Bool.false_eq_true,
      if_false]
    simp [StageStep.okState, writtenPackets, hc, OutputContext.write_interleaved]

theorem c9_witness :
    exVideoLoaded.ffmpeg_context =
      some { FfmpegContext.new (OutputArgs.video exVideoArgs) with
        video := some { encoder := ⟨[7], false⟩, filter := ⟨[]⟩, args := exVideoArgs } } ∧
    (write_encoded_video_packet idealOracle exVideoLoaded).okState.map writtenPackets =
      some (writtenPackets exVideoLoaded ++
        [Packet.rescale_ts ⟨0, 7⟩ ⟨1, (60 : Int)⟩ videoStreamTimeBase]) :=
  ⟨rfl,
   c9_pts_stamping.2.2.1 idealOracle exVideoLoaded
     { FfmpegContext.new (OutputArgs.video exVideoArgs) with
       video := some { encoder := ⟨[7], false⟩, filter := ⟨[]⟩, args := exVideoArgs } }
     { encoder := ⟨[7], false⟩, filter := ⟨[]⟩, args := exVideoArgs }
     7 [] ⟨StreamKind.video, videoStreamTimeBase⟩ rfl rfl rfl rfl (by decide)⟩

/-- C10: every encoded audio packet is tagged with stream index 1 before
being written to the container, whatever the session arguments were; yet in
an audio-only session the container holds exactly one stream, the audio
stream, at index 0 — looking up index 1 finds no stream, so the tagged
index never matches the audio stream actually added. -/
theorem c10_audio_stream_index_mismatch :
    (∀ (o : IterOracle) (s : CollectedAVFfmpegEncoder) (ctx : FfmpegContext)
        (ac : FfmpegAudioContext) (pts : Int) (rest : List Int),
      s.ffmpeg_context = some ctx → ctx.audio = some ac →
      ac.encoder.in_queue = pts :: rest → o.a_recv_block = false →
      (write_encoded_audio_packet o s).okState.map writtenPackets =
        some (writtenPackets s ++ [{ stream := 1, pts := pts }])) ∧
    (∀ a : AudioArgs,
      (FfmpegContext.new (OutputArgs.audio a)).octx.streams =
        [⟨StreamKind.audio, audioDefaultTimeBase⟩] ∧
      (FfmpegContext.new (OutputArgs.audio a)).octx.stream 0 =
        some ⟨StreamKind.audio, audioDefaultTimeBase⟩ ∧
      (FfmpegContext.new (OutputArgs.audio a)).octx.stream 1 = none) := by
  constructor
  · intro o s ctx ac pts rest hc ha hq hblk
    unfold write_encoded_audio_packet
    simp only [hc, ha, BackendEncoder.receive_packet, hq, hblk, Bool.false_eq_true,
      if_false]
    simp [StageStep.okState, writtenPackets, hc, OutputContext.write_interleaved]
  · intro a
    refine ⟨rfl, rfl, rfl⟩

theorem c10_witness :
    ((write_encoded_audio_packet idealOracle exAudioLoaded).okState.map writtenPackets =
      some (writtenPackets exAudioLoaded ++ [{ stream := 1, pts := 7 }])) ∧
    (FfmpegContext.new (OutputArgs.audio exAudioArgs)).octx.streams =
      [⟨StreamKind.audio, audioDefaultTimeBase⟩] ∧
    (FfmpegContext.new (OutputArgs.audio exAudioArgs)).octx.stream 1 = none :=
  ⟨c10_audio_stream_index_mismatch.1 idealOracle exAudioLoaded
     { FfmpegContext.new (OutputArgs.audio exAudioArgs) with
       audio := some { encoder := ⟨[7], false⟩, filter := ⟨[]⟩, args := exAudioArgs } }
     { encoder := ⟨[7], false⟩, filter := ⟨[]⟩, args := exAudioArgs }
     7 [] rfl rfl rfl rfl,
   (c10_audio_stream_index_mismatch.2 exAudioArgs).1,
   (c10_audio_stream_index_mismatch.2 exAudioArgs).2.2⟩

/-! ## Claim theorem C3 -/

theorem videoActive_eq (s : LoopState) : videoActive s = vActE s.enc := rfl

theorem audioActive_eq (s : LoopState) : audioActive s = aActE s.enc := rfl

/-- C3: over any finished run started from an unconfigured worker, each
active encoder receives a successful end-of-stream send exactly once (and
never more than one success per encoder even ignoring activity); at the
iteration level, once the flush handshake has recorded success no further
end-of-stream signal is ever sent, a round containing a `WouldBlock` send
leaves success unrecorded so it is retried in a later drain iteration, and
a round whose sends all avoided `WouldBlock` (success or an
already-finished encoder's `Eof`) records success. -/
theorem c3_eos_exactly_once :
    (∀ (ora : Nat → IterOracle) (fuel k : Nat) (s0 sf : LoopState)
        (evs : List IterEvents),
      goodInit s0 → runFrom ora k fuel s0 = (RunResult.finished sf, evs) →
      (videoActive sf = true → eofOkCount evs StreamKind.video = 1) ∧
      (audioActive sf = true → eofOkCount evs StreamKind.audio = 1) ∧
      eofOkCount evs StreamKind.video ≤ 1 ∧ eofOkCount evs StreamKind.audio ≤ 1) ∧
    (∀ (o : IterOracle) (s s' : LoopState) (ev : IterEvents),
      (iterate o s = IterResult.cont s' ev ∨ iterate o s = IterResult.exit s' ev) →
      s.eof_was_sent_to_encoders = true → ev.eof_sends = []) ∧
    (∀ (o : IterOracle) (s s' : LoopState) (ev : IterEvents),
      (iterate o s = IterResult.cont s' ev ∨ iterate o s = IterResult.exit s' ev) →
      (∃ p ∈ ev.eof_sends, p.2 = SendEofResult.againSend) →
      s'.eof_was_sent_to_encoders = false) ∧
    (∀ (o : IterOracle) (s s' : LoopState) (ev : IterEvents),
      (iterate o s = IterResult.cont s' ev ∨ iterate o s = IterResult.exit s' ev) →
      ev.eof_sends ≠ [] → (∀ p ∈ ev.eof_sends, p.2 ≠ SendEofResult.againSend) →
      s'.eof_was_sent_to_encoders = true) := by
  refine ⟨?_, ?_, ?_, ?_⟩
  · intro ora fuel k s0 sf evs hg hrun
    obtain ⟨hctx, hend, hops, hflag⟩ := hg
    have hJ : Jinv s0 := by
      refine ⟨?_, ?_, ?_⟩
      · intro h; rw [hend] at h; cases h
      · intro h; rw [hops] at h; cases h
      · intro h; rw [hflag] at h; cases h
    have hv0 : vSigE s0.enc = false := by simp [vSigE, hctx]
    have ha0 : aSigE s0.enc = false := by simp [aSigE, hctx]
    obtain ⟨g1, g2, -, g4⟩ := runFrom_okCount ora fuel k s0 sf evs hrun
    rw [hv0] at g1
    rw [ha0] at g2
    simp only [Bool.false_eq_true, if_false, Nat.add_zero] at g1 g2
    obtain ⟨g4v, g4a⟩ := g4 hJ
    refine ⟨?_, ?_, ?_, ?_⟩
    · intro hva
      have hsig : vSigE sf.enc = true := g4v ((videoActive_eq sf) ▸ hva)
      rw [hsig] at g1
      simpa using g1
    · intro haa
      have hsig : aSigE sf.enc = true := g4a ((audioActive_eq sf) ▸ haa)
      rw [hsig] at g2
      simpa using g2
    · rcases hb : vSigE sf.enc with _ | _ <;> rw [hb] at g1 <;> simp at g1 <;> omega
    · rcases hb : aSigE sf.enc with _ | _ <;> rw [hb] at g2 <;> simp at g2 <;> omega
  · intro o s s' ev h hflag
    exact ((iterate_facts h).2.2.2.2.2.1 hflag).1
  · intro o s s' ev h hagain
    exact (iterate_facts h).2.2.2.2.2.2.1 hagain
  · intro o s s' ev h hne hnoagain
    exact (iterate_facts h).2.2.2.2.2.2.2.1 hne hnoagain

theorem c3_witness :
    goodInit (initLoopState exInput) ∧
    runFrom idealRun 0 5 (initLoopState exInput) =
      (RunResult.finished exRunFinal, exRun.2) ∧
    ((videoActive exRunFinal = true → eofOkCount exRun.2 StreamKind.video = 1) ∧
     (audioActive exRunFinal = true → eofOkCount exRun.2 StreamKind.audio = 1) ∧
     eofOkCount exRun.2 StreamKind.video ≤ 1 ∧
     eofOkCount exRun.2 StreamKind.audio ≤ 1) :=
  ⟨⟨rfl, rfl, rfl, rfl⟩, by decide,
   c3_eos_exactly_once.1 idealRun 5 0 (initLoopState exInput) exRunFinal exRun.2
     ⟨rfl, rfl, rfl, rfl⟩ (by decide)⟩

/-! ## Helper lemmas for the ideal-oracle termination argument (C1) -/

theorem pull_some {g : FilterGraph} {blk : Bool} {pts : Int} {g' : FilterGraph}
    (h : g.pull blk = some (pts, g')) : g.queue = pts :: g'.queue := by
  unfold FilterGraph.pull at h
  split at h
  · cases h
  · rcases hq : g.queue with _ | ⟨p, rest⟩ <;> rw [hq] at h
    · cases h
    · cases h
      rfl

theorem receive_packet_queue {e : BackendEncoder} {blk : Bool} {pts : Int}
    {e' : BackendEncoder} (h : e.receive_packet blk = .packet pts e') :
    e.in_queue = pts :: e'.in_queue ∧ e'.eof_signaled = e.eof_signaled := by
  unfold BackendEncoder.receive_packet at h
  rcases hq : e.in_queue with _ | ⟨p, rest⟩ <;> simp only [hq] at h
  · split at h <;> cases h
  · split at h
    · cases h
    · cases h
      exact ⟨rfl, rfl⟩

theorem ctxLoad_new (args : OutputArgs) :
    ctxLoad (some (FfmpegContext.new args)) ≤ 2 := by
  cases args <;> simp [ctxLoad, FfmpegContext.new]

theorem handle_measure {s s' : CollectedAVFfmpegEncoder} {f : Frame}
    (h : handle_frame s f = .ok s') :
    s'.receiver = s.receiver ∧
    ctxLoad s'.ffmpeg_context ≤ ctxLoad s.ffmpeg_context + 3 := by
  obtain ⟨fd, n⟩ := f
  rcases hc : s.ffmpeg_context with _ | ctx
  · cases fd
    case video => simp [handle_frame, hc] at h
    case audio => simp [handle_frame, hc] at h
    case endStream => simp [handle_frame, hc] at h
    case configure args =>
      rw [handle_configure_none hc] at h
      cases h
      refine ⟨rfl, ?_⟩
      have h2 := ctxLoad_new args
      have h3 : ctxLoad none = 0 := rfl
      show ctxLoad (some (FfmpegContext.new args)) ≤ ctxLoad none + 3
      omega
  · cases fd
    case video vp =>
      rcases hv : ctx.video with _ | vc
      · simp [handle_frame, hc, hv] at h
      · rw [handle_video hc hv] at h
        cases h
        refine ⟨rfl, ?_⟩
        simp only [ctxLoad, hv, FilterGraph.push, List.length_append, List.length_cons,
          List.length_nil]
        omega
    case audio ap =>
      rcases ha : ctx.audio with _ | ac
      · simp [handle_frame, hc, ha] at h
      · rw [handle_audio hc ha] at h
        cases h
        refine ⟨rfl, ?_⟩
        simp only [ctxLoad, ha, FilterGraph.push, List.length_append, List.length_cons,
          List.length_nil]
        omega
    case configure args =>
      rw [handle_configure_some hc] at h
      cases h
      refine ⟨rfl, ?_⟩
      show ctxLoad s.ffmpeg_context ≤ ctxLoad (some ctx) + 3
      rw [hc]
      omega
    case endStream =>
      rw [handle_end_some hc] at h
      cases h
      refine ⟨rfl, ?_⟩
      show ctxLoad s.ffmpeg_context ≤ ctxLoad (some ctx) + 3
      rw [hc]
      omega

theorem step0_success_measure {b : Bool} {o : IterOracle}
    {s s' : CollectedAVFfmpegEncoder} (h : step0 b o s = .success s') :
    ctxLoad s'.ffmpeg_context < ctxLoad s.ffmpeg_context := by
  unfold step0 at h
  split at h
  case isTrue hvb =>
    rcases hc : s.ffmpeg_context with _ | ctx
    · simp [videoBound, hc] at hvb
    · rcases hv : ctx.video with _ | vc
      · simp [videoBound, hc, hv] at hvb
      · rcases hp : vc.filter.pull o.v_pull_block with _ | ⟨pts, f'⟩
        · simp [get_filtered_video_frame_and_start_encode, hc, hv, hp] at h
        · have hq := pull_some hp
          simp only [get_filtered_video_frame_and_start_encode, hc, hv, hp] at h
          cases h
          simp only [ctxLoad, hv, hq, BackendEncoder.send_frame, List.length_append,
            List.length_cons, List.length_nil]
          omega
  case isFalse => cases h

theorem step1_success_measure {b : Bool} {o : IterOracle}
    {s s' : CollectedAVFfmpegEncoder} (h : step1 b o s = .success s') :
    ctxLoad s'.ffmpeg_context < ctxLoad s.ffmpeg_context := by
  unfold step1 at h
  split at h
  case isTrue hab =>
    rcases hc : s.ffmpeg_context with _ | ctx
    · simp [audioBound, hc] at hab
    · rcases ha : ctx.audio with _ | ac
      · simp [audioBound, hc, ha] at hab
      · rcases hp : ac.filter.pull o.a_pull_block with _ | ⟨pts, f'⟩
        · simp [get_filtered_audio_frame_and_start_encode, hc, ha, hp] at h
        · have hq := pull_some hp
          simp only [get_filtered_audio_frame_and_start_encode, hc, ha, hp] at h
          cases h
          simp only [ctxLoad, ha, hq, BackendEncoder.send_frame, List.length_append,
            List.length_cons, List.length_nil]
          omega
  case isFalse => cases h

theorem step2_success_measure {b : Bool} {o : IterOracle}
    {s s' : CollectedAVFfmpegEncoder} (h : step2 b o s = .success s') :
    ctxLoad s'.ffmpeg_context < ctxLoad s.ffmpeg_context := by
  unfold step2 at h
  split at h
  case isTrue hvb =>
    rcases hc : s.ffmpeg_context with _ | ctx
    · simp [videoBound, hc] at hvb
    · rcases hv : ctx.video with _ | vc
      · simp [videoBound, hc, hv] at hvb
      · rcases hrp : vc.encoder.receive_packet o.v_recv_block with ⟨pts, enc'⟩ | _ | _
        · obtain ⟨hq, hsg⟩ := receive_packet_queue hrp
          rcases hst : ctx.octx.stream 0 with _ | st0 <;>
            simp only [write_encoded_video_packet, hc, hv, hrp, hst] at h
          · cases h
          · cases h
            simp only [ctxLoad, hv, hq, hsg, List.length_cons]
            omega
        · simp [write_encoded_video_packet, hc, hv, hrp] at h
        · simp [write_encoded_video_packet, hc, hv, hrp] at h
  case isFalse => cases h

theorem step3_success_measure {b : Bool} {o : IterOracle}
    {s s' : CollectedAVFfmpegEncoder} (h : step3 b o s = .success s') :
    ctxLoad s'.ffmpeg_context < ctxLoad s.ffmpeg_context := by
  unfold step3 at h
  split at h
  case isTrue hab =>
    rcases hc : s.ffmpeg_context with _ | ctx
    · simp [audioBound, hc] at hab
    · rcases ha : ctx.audio with _ | ac
      · simp [audioBound, hc, ha] at hab
      · rcases hrp : ac.encoder.receive_packet o.a_recv_block with ⟨pts, enc'⟩ | _ | _
        · obtain ⟨hq, hsg⟩ := receive_packet_queue hrp
          simp only [write_encoded_audio_packet, hc, ha, hrp] at h
          cases h
          simp only [ctxLoad, ha, hq, hsg, List.length_cons]
          omega
        · simp [write_encoded_audio_packet, hc, ha, hrp] at h
        · simp [write_encoded_audio_packet, hc, ha, hrp] at h
  case isFalse => cases h

theorem step0_err_again {b : Bool} {o : IterOracle} {s : CollectedAVFfmpegEncoder}
    {e : FfErr} (h : step0 b o s = .err e) : e = FfErr.again := by
  unfold step0 at h
  split at h
  · unfold get_filtered_video_frame_and_start_encode at h
    repeat' split at h
    all_goals cases h
    all_goals rfl
  · cases h
    rfl

theorem step1_err_again {b : Bool} {o : IterOracle} {s : CollectedAVFfmpegEncoder}
    {e : FfErr} (h : step1 b o s = .err e) : e = FfErr.again := by
  unfold step1 at h
  split at h
  · unfold get_filtered_audio_frame_and_start_encode at h
    repeat' split at h
    all_goals cases h
    all_goals rfl
  · cases h
    rfl

theorem runStages_cases {b : Bool} {o : IterOracle} {s s' : CollectedAVFfmpegEncoder}
    {r : OperationResults} (h : runStages b o s = some (r, s')) :
    (s' = s ∧ r.r0 = some FfErr.again ∧ r.r1 = some FfErr.again ∧
      (∃ e2, r.r2 = some e2 ∧ step2 b o s = StageStep.err e2) ∧
      (∃ e3, r.r3 = some e3 ∧ step3 b o s = StageStep.err e3)) ∨
    ctxLoad s'.ffmpeg_context < ctxLoad s.ffmpeg_context := by
  unfold runStages at h
  repeat' split at h
  all_goals cases h
  · exact Or.inr (step0_success_measure (by assumption))
  · exact Or.inr (step1_success_measure (by assumption))
  · exact Or.inr (step2_success_measure (by assumption))
  · exact Or.inr (step3_success_measure (by assumption))
  · refine Or.inl ⟨rfl, ?_, ?_, ⟨_, rfl, by assumption⟩, ⟨_, rfl, by assumption⟩⟩
    · simp [step0_err_again (by assumption)]
    · simp [step1_err_again (by assumption)]

theorem step0_safe (b : Bool) (o : IterOracle) (s : CollectedAVFfmpegEncoder) :
    step0 b o s ≠ StageStep.panicStep := by
  intro h
  unfold step0 at h
  split at h
  case isTrue hvb =>
    rcases hc : s.ffmpeg_context with _ | ctx
    · simp [videoBound, hc] at hvb
    · rcases hv : ctx.video with _ | vc
      · simp [get_filtered_video_frame_and_start_encode, hc, hv] at h
      · rcases hp : vc.filter.pull o.v_pull_block with _ | ⟨pts, f'⟩ <;>
          simp [get_filtered_video_frame_and_start_encode, hc, hv, hp] at h
  case isFalse => cases h

theorem step1_safe (b : Bool) (o : IterOracle) (s : CollectedAVFfmpegEncoder) :
    step1 b o s ≠ StageStep.panicStep := by
  intro h
  unfold step1 at h
  split at h
  case isTrue hab =>
    rcases hc : s.ffmpeg_context with _ | ctx
    · simp [audioBound, hc] at hab
    · rcases ha : ctx.audio with _ | ac
      · simp [get_filtered_audio_frame_and_start_encode, hc, ha] at h
      · rcases hp : ac.filter.pull o.a_pull_block with _ | ⟨pts, f'⟩ <;>
          simp [get_filtered_audio_frame_and_start_encode, hc, ha, hp] at h
  case isFalse => cases h

theorem step2_safe {b : Bool} {o : IterOracle} {s : CollectedAVFfmpegEncoder}
    (hstr : vActE s = true → streamsE s ≠ []) :
    step2 b o s ≠ StageStep.panicStep := by
  intro h
  unfold step2 at h
  split at h
  case isTrue hvb =>
    rcases hc : s.ffmpeg_context with _ | ctx
    · simp [videoBound, hc] at hvb
    · rcases hv : ctx.video with _ | vc
      · simp [videoBound, hc, hv] at hvb
      · have hne : ctx.octx.streams ≠ [] := by
          have := hstr (by simp [vActE, hc, hv])
          simpa [streamsE, hc] using this
        rcases hss : ctx.octx.streams with _ | ⟨st, l⟩
        · exact hne hss
        · rcases hrp : vc.encoder.receive_packet o.v_recv_block with ⟨pts, enc'⟩ | _ | _ <;>
            simp [write_encoded_video_packet, hc, hv, hrp, OutputContext.stream, hss] at h
  case isFalse => cases h

theorem step3_safe (b : Bool) (o : IterOracle) (s : CollectedAVFfmpegEncoder) :
    step3 b o s ≠ StageStep.panicStep := by
  intro h
  unfold step3 at h
  split at h
  case isTrue hab =>
    rcases hc : s.ffmpeg_context with _ | ctx
    · simp [audioBound, hc] at hab
    · rcases ha : ctx.audio with _ | ac
      · simp [write_encoded_audio_packet, hc, ha] at h
      · rcases hrp : ac.encoder.receive_packet o.a_recv_block with ⟨pts, enc'⟩ | _ | _ <;>
          simp [write_encoded_audio_packet, hc, ha, hrp] at h
  case isFalse => cases h

theorem runStages_safe {b : Bool} {o : IterOracle} {s : CollectedAVFfmpegEncoder}
    (hstr : vActE s = true → streamsE s ≠ []) :
    runStages b o s ≠ none := by
  intro h
  unfold runStages at h
  repeat' split at h
  all_goals try cases h
  all_goals rename_i heq
  all_goals first
    | exact step0_safe b o s heq
    | exact step1_safe b o s heq
    | exact step2_safe hstr heq
    | exact step3_safe b o s heq

theorem runStages_unbound (o : IterOracle) (e : CollectedAVFfmpegEncoder) :
    runStages false o e = some (drainPattern, e) := by
  simp [runStages, step0, step1, step2, step3, videoBound, audioBound, drainPattern]

theorem step2_again_ideal {b : Bool} {s : CollectedAVFfmpegEncoder}
    (h : step2 b idealOracle s = .err FfErr.again) :
    vActE s = true ∧ vSigE s = false := by
  unfold step2 at h
  split at h
  case isTrue hvb =>
    rcases hc : s.ffmpeg_context with _ | ctx
    · simp [videoBound, hc] at hvb
    · rcases hv : ctx.video with _ | vc
      · simp [videoBound, hc, hv] at hvb
      · refine ⟨by simp [vActE, hc, hv], ?_⟩
        rcases hq : vc.encoder.in_queue with _ | ⟨p, rest⟩
        · rcases hsig : vc.encoder.eof_signaled with _ | _
          · simp [vSigE, hc, hv, hsig]
          · simp [write_encoded_video_packet, hc, hv,
              BackendEncoder.receive_packet, hq, hsig] at h
        · rcases hst : ctx.octx.stream 0 with _ | st0 <;>
            simp [write_encoded_video_packet, hc, hv,
              BackendEncoder.receive_packet, hq, idealOracle, hst] at h
  case isFalse => cases h

theorem step3_again_ideal {b : Bool} {s : CollectedAVFfmpegEncoder}
    (h : step3 b idealOracle s = .err FfErr.again) :
    aActE s = true ∧ aSigE s = false := by
  unfold step3 at h
  split at h
  case isTrue hab =>
    rcases hc : s.ffmpeg_context with _ | ctx
    · simp [audioBound, hc] at hab
    · rcases ha : ctx.audio with _ | ac
      · simp [audioBound, hc, ha] at hab
      · refine ⟨by simp [aActE, hc, ha], ?_⟩
        rcases hq : ac.encoder.in_queue with _ | ⟨p, rest⟩
        · rcases hsig : ac.encoder.eof_signaled with _ | _
          · simp [aSigE, hc, ha, hsig]
          · simp [write_encoded_audio_packet, hc, ha,
              BackendEncoder.receive_packet, hq, hsig] at h
        · simp [write_encoded_audio_packet, hc, ha,
            BackendEncoder.receive_packet, hq, idealOracle] at h
  case isFalse => cases h

theorem ctxLoad_obs (e : CollectedAVFfmpegEncoder) :
    ctxLoad e.ffmpeg_context =
      (if vActE e = true then
        3 * (videoFilterQueue e).length + 2 * (vIQ e).length +
          (if vSigE e = true then 0 else 1) else 0) +
      (if aActE e = true then
        3 * (audioFilterQueue e).length + 2 * (aIQ e).length +
          (if aSigE e = true then 0 else 1) else 0) := by
  rcases hc : e.ffmpeg_context with _ | ctx
  · simp [ctxLoad, vActE, aActE, hc]
  · rcases hv : ctx.video with _ | vc <;> rcases ha : ctx.audio with _ | ac <;>
      simp [ctxLoad, vActE, aActE, vSigE, aSigE, vIQ, aIQ, videoFilterQueue,
        audioFilterQueue, hc, hv, ha]

theorem send_measure (o : IterOracle) (s : CollectedAVFfmpegEncoder) :
    ctxLoad (send_eof_to_encoders o s).1.ffmpeg_context ≤ ctxLoad s.ffmpeg_context ∧
    ((send_eof_to_encoders o s).2.1 = true → vActE s = true → vSigE s = false →
      ctxLoad (send_eof_to_encoders o s).1.ffmpeg_context < ctxLoad s.ffmpeg_context) ∧
    ((send_eof_to_encoders o s).2.1 = true → aActE s = true → aSigE s = false →
      ctxLoad (send_eof_to_encoders o s).1.ffmpeg_context < ctxLoad s.ffmpeg_context) := by
  obtain ⟨-, -, -, hva, haa, -, -, hviq, haiq, hvfq, hafq, -, -, hsucc, -, -, hvs, has, -⟩ :=
    send_eof_spec o s
  rw [ctxLoad_obs (send_eof_to_encoders o s).1, ctxLoad_obs s,
    hva, haa, hviq, haiq, hvfq, hafq]
  have hb1 : (if vSigE (send_eof_to_encoders o s).1 = true then 0 else 1) ≤
      (if vSigE s = true then (0 : Nat) else 1) := by
    rcases hsv : vSigE s with _ | _
    · rcases hsv2 : vSigE (send_eof_to_encoders o s).1 with _ | _ <;> simp
    · rw [hvs hsv]
  have hb2 : (if aSigE (send_eof_to_encoders o s).1 = true then 0 else 1) ≤
      (if aSigE s = true then (0 : Nat) else 1) := by
    rcases hsa : aSigE s with _ | _
    · rcases hsa2 : aSigE (send_eof_to_encoders o s).1 with _ | _ <;> simp
    · rw [has hsa]
  refine ⟨?_, ?_, ?_⟩
  · rcases hbv : vActE s with _ | _ <;> rcases hba : aActE s with _ | _ <;>
      simp only [Bool.false_eq_true, if_false, if_true] <;> omega
  · intro hs hva2 hsv2
    have h14 : vSigE (send_eof_to_encoders o s).1 = true := (hsucc hs).1 hva2
    rw [hva2, h14, hsv2]
    simp only [Bool.false_eq_true, if_false, if_true]
    rcases hba : aActE s with _ | _ <;>
      simp only [Bool.false_eq_true, if_false, if_true] <;> omega
  · intro hs hba2 hsa2
    have h14 : aSigE (send_eof_to_encoders o s).1 = true := (hsucc hs).2 hba2
    rw [hba2, h14, hsa2]
    simp only [Bool.false_eq_true, if_false, if_true]
    rcases hbv : vActE s with _ | _ <;>
      simp only [Bool.false_eq_true, if_false, if_true] <;> omega

theorem EncOK_pres {args : OutputArgs} {e e' : CollectedAVFfmpegEncoder}
    (h : EncPres e e') (hE : EncOK args e) : EncOK args e' := by
  obtain ⟨hrecv, hend, hsome, hva, haa, -, -, -, hstr⟩ := h
  obtain ⟨e1, e2, e3, e4, e5⟩ := hE
  refine ⟨by rw [hsome]; exact e1, by rw [hva]; exact e2, by rw [haa]; exact e3,
    by rw [hstr]; exact e4, ?_⟩
  unfold pendingOK at e5 ⊢
  rw [hend, hrecv]
  exact e5

theorem EncOK_send {args : OutputArgs} (o : IterOracle) {e : CollectedAVFfmpegEncoder}
    (hE : EncOK args e) : EncOK args (send_eof_to_encoders o e).1 := by
  obtain ⟨hrecv, hend, hsome, hva, haa, -, hstr, -⟩ := send_eof_spec o e
  obtain ⟨e1, e2, e3, e4, e5⟩ := hE
  refine ⟨by rw [hsome]; exact e1, by rw [hva]; exact e2, by rw [haa]; exact e3,
    by rw [hstr]; exact e4, ?_⟩
  unfold pendingOK at e5 ⊢
  rw [hend, hrecv]
  exact e5

theorem vActE_some {e : CollectedAVFfmpegEncoder} (h : vActE e = true) :
    ∃ ctx vc, e.ffmpeg_context = some ctx ∧ ctx.video = some vc := by
  rcases hc : e.ffmpeg_context with _ | ctx
  · simp [vActE, hc] at h
  · rcases hv : ctx.video with _ | vc
    · simp [vActE, hc, hv] at h
    · exact ⟨ctx, vc, rfl, hv⟩

theorem aActE_some {e : CollectedAVFfmpegEncoder} (h : aActE e = true) :
    ∃ ctx ac, e.ffmpeg_context = some ctx ∧ ctx.audio = some ac := by
  rcases hc : e.ffmpeg_context with _ | ctx
  · simp [aActE, hc] at h
  · rcases ha : ctx.audio with _ | ac
    · simp [aActE, hc, ha] at h
    · exact ⟨ctx, ac, rfl, ha⟩

theorem iterate_abort_inv {o : IterOracle} {s : LoopState}
    (h : iterate o s = IterResult.abort) :
    (∃ f rest, s.enc.receiver = f :: rest ∧
      handle_frame { s.enc with receiver := rest } f = HandleResult.panicked) ∨
    (∃ enc1,
      ((s.enc.receiver = [] ∧ enc1 = s.enc) ∨
        (∃ f rest, s.enc.receiver = f :: rest ∧
          handle_frame { s.enc with receiver := rest } f = HandleResult.ok enc1)) ∧
      runStages (s.ops_bound || s.enc.ffmpeg_context.isSome) o enc1 = none) := by
  rcases hrecv : s.enc.receiver with _ | ⟨f, rest⟩
  · rcases hrs : runStages (s.ops_bound || s.enc.ffmpeg_context.isSome) o s.enc
      with _ | ⟨r, enc2⟩
    · exact Or.inr ⟨s.enc, Or.inl ⟨rfl, rfl⟩, hrs⟩
    · exfalso
      rcases hgate : (enc2.is_ending && enc2.receiver.isEmpty) with _ | _
      · simp [iterate, hrecv, hrs, hgate] at h
      · rcases hexit : (flushCheck o r s.eof_was_sent_to_encoders enc2).exit_loop
          with _ | _ <;>
          simp [iterate, hrecv, hrs, hgate, hexit] at h
  · rcases hhf : handle_frame { s.enc with receiver := rest } f with enc1 | _
    · rcases hrs : runStages (s.ops_bound || s.enc.ffmpeg_context.isSome) o enc1
        with _ | ⟨r, enc2⟩
      · exact Or.inr ⟨enc1, Or.inr ⟨f, rest, rfl, hhf⟩, hrs⟩
      · exfalso
        rcases hgate : (enc2.is_ending && enc2.receiver.isEmpty) with _ | _
        · simp [iterate, hrecv, hhf, hrs, hgate] at h
        · rcases hexit : (flushCheck o r s.eof_was_sent_to_encoders enc2).exit_loop
            with _ | _ <;>
            simp [iterate, hrecv, hhf, hrs, hgate, hexit] at h
    · exact Or.inl ⟨f, rest, rfl, hhf⟩

theorem flushCheck_cases (o : IterOracle) (r : OperationResults) (flag : Bool)
    (e : CollectedAVFfmpegEncoder) :
    r = drainPattern ∨
    ((r.r0 ≠ some FfErr.again ∨ r.r1 ≠ some FfErr.again) ∧
      flushCheck o r flag e = ⟨e, flag, false, false, []⟩) ∨
    (flag = true ∧ r.r0 = some FfErr.again ∧ r.r1 = some FfErr.again ∧
      ¬(r.r2 = some FfErr.eofErr ∧ r.r3 = some FfErr.eofErr) ∧
      flushCheck o r flag e = ⟨e, flag, false, false, []⟩) ∨
    (flag = false ∧ r.r0 = some FfErr.again ∧ r.r1 = some FfErr.again ∧
      ¬(r.r2 = some FfErr.eofErr ∧ r.r3 = some FfErr.eofErr) ∧
      flushCheck o r flag e =
        ⟨(send_eof_to_encoders o e).1, (send_eof_to_encoders o e).2.1, false, false,
         (send_eof_to_encoders o e).2.2⟩) := by
  by_cases hd : r = drainPattern
  · exact Or.inl hd
  · by_cases h0 : r.r0 = some FfErr.again
    · by_cases h1 : r.r1 = some FfErr.again
      · have hne : ¬(r.r2 = some FfErr.eofErr ∧ r.r3 = some FfErr.eofErr) := by
          rintro ⟨h2, h3⟩
          apply hd
          obtain ⟨r0, r1, r2, r3⟩ := r
          simp only [] at h0 h1 h2 h3
          rw [h0, h1, h2, h3]
          rfl
        rcases flag with _ | _
        · exact Or.inr (Or.inr (Or.inr ⟨rfl, h0, h1, hne,
            flush_send_unflagged o e h0 h1 hne⟩))
        · exact Or.inr (Or.inr (Or.inl ⟨rfl, h0, h1, hne,
            flush_send_flagged o e h0 h1 hne⟩))
      · exact Or.inr (Or.inl ⟨Or.inr h1, flush_other o flag e (Or.inr h1)⟩)
    · exact Or.inr (Or.inl ⟨Or.inl h0, flush_other o flag e (Or.inl h0)⟩)

theorem runFrom_trailer (ora : Nat → IterOracle) :
    ∀ (fuel k : Nat) (s sf : LoopState) (evs : List IterEvents),
      runFrom ora k fuel s = (.finished sf, evs) → Jinv s →
      trailerEvents evs = 1 ∧ trailersE sf.enc = trailersE s.enc + 1 := by
  intro fuel
  induction fuel with
  | zero =>
    intro k s sf evs h hJ
    simp [runFrom] at h
  | succ fuel ih =>
    intro k s sf evs h hJ
    rcases hit : iterate (ora k) s with ⟨s', ev⟩ | ⟨s', ev⟩ | _
    · simp only [runFrom, hit] at h
      rcases hrest : runFrom ora (k + 1) fuel s' with ⟨res, evs'⟩
      rw [hrest] at h
      dsimp only at h
      cases h
      obtain ⟨-, -, -, -, -, -, -, -, f9, f10⟩ := iterate_facts (Or.inl hit)
      have htw := iterate_cont_trailer hit
      obtain ⟨g1, g2⟩ := ih (k + 1) s' sf evs' hrest (f10 hJ)
      rw [trailerEvents_cons, htw]
      constructor
      · simp [g1]
      · rw [htw] at f9
        simp at f9
        omega
    · simp only [runFrom, hit] at h
      cases h
      obtain ⟨-, -, -, -, -, -, -, -, f9, -⟩ := iterate_facts (Or.inr hit)
      obtain ⟨-, -, -, -, -, hjt, -⟩ := iterate_exit_char hit
      have htw1 : ev.trailer_written = true := hjt hJ
      rw [trailerEvents_cons, htw1]
      constructor
      · simp [trailerEvents]
      · rw [htw1] at f9
        simp at f9
        omega
    · simp [runFrom, hit] at h

/-- After the dispatch step of an ideal-oracle iteration, with the
dispatched state satisfying the session invariant: the iteration either
exits the loop, or continues with the invariant preserved and the
termination measure strictly decreased. -/
theorem ideal_step_post {args : OutputArgs} {s : LoopState}
    {enc1 enc2 : CollectedAVFfmpegEncoder} {r : OperationResults}
    (hE1 : EncOK args enc1)
    (hflag1 : s.eof_was_sent_to_encoders = true →
      (vActE enc1 = true → vSigE enc1 = true) ∧
      (aActE enc1 = true → aSigE enc1 = true))
    (hrs : runStages (s.ops_bound || s.enc.ffmpeg_context.isSome) idealOracle enc1 =
      some (r, enc2))
    (hrest :
      (((enc2.is_ending && enc2.receiver.isEmpty) = false ∧
        iterate idealOracle s = IterResult.cont
          ⟨enc2, s.ops_bound || s.enc.ffmpeg_context.isSome, s.eof_was_sent_to_encoders⟩
          ⟨enc2.is_ending, enc2.receiver.isEmpty, r, false,
            s.enc.ffmpeg_context.isNone && enc1.ffmpeg_context.isSome, []⟩) ∨
       ((enc2.is_ending && enc2.receiver.isEmpty) = true ∧
        iterate idealOracle s =
          if (flushCheck idealOracle r s.eof_was_sent_to_encoders enc2).exit_loop then
            IterResult.exit
              ⟨(flushCheck idealOracle r s.eof_was_sent_to_encoders enc2).state,
                s.ops_bound || s.enc.ffmpeg_context.isSome,
                (flushCheck idealOracle r s.eof_was_sent_to_encoders enc2).eof_was_sent⟩
              ⟨enc2.is_ending, enc2.receiver.isEmpty, r,
                (flushCheck idealOracle r s.eof_was_sent_to_encoders enc2).trailer_written,
                s.enc.ffmpeg_context.isNone && enc1.ffmpeg_context.isSome,
                (flushCheck idealOracle r s.eof_was_sent_to_encoders enc2).eof_sends⟩
          else
            IterResult.cont
              ⟨(flushCheck idealOracle r s.eof_was_sent_to_encoders enc2).state,
                s.ops_bound || s.enc.ffmpeg_context.isSome,
                (flushCheck idealOracle r s.eof_was_sent_to_encoders enc2).eof_was_sent⟩
              ⟨enc2.is_ending, enc2.receiver.isEmpty, r,
                (flushCheck idealOracle r s.eof_was_sent_to_encoders enc2).trailer_written,
                s.enc.ffmpeg_context.isNone && enc1.ffmpeg_context.isSome,
                (flushCheck idealOracle r s.eof_was_sent_to_encoders enc2).eof_sends⟩)))
    (hM : 4 * enc1.receiver.length + ctxLoad enc1.ffmpeg_context ≤ loopMeasure s)
    (hstrict : 4 * enc1.receiver.length + ctxLoad enc1.ffmpeg_context < loopMeasure s ∨
      enc1.receiver = []) :
    (∃ s' ev, iterate idealOracle s = IterResult.exit s' ev) ∨
    (∃ s' ev, iterate idealOracle s = IterResult.cont s' ev ∧ InvWF args s' ∧
      loopMeasure s' < loopMeasure s) := by
  obtain ⟨p1, p2, p3, p4, p5, p6, p7, p8, p9⟩ := runStages_pres hrs
  have hE2 : EncOK args enc2 := EncOK_pres (runStages_pres hrs) hE1
  have hflag2 : s.eof_was_sent_to_encoders = true →
      (vActE enc2 = true → vSigE enc2 = true) ∧
      (aActE enc2 = true → aSigE enc2 = true) := by
    intro hft
    obtain ⟨hfa, hfb⟩ := hflag1 hft
    constructor
    · intro hva2
      rw [p6]
      exact hfa (by rw [← p4]; exact hva2)
    · intro haa2
      rw [p7]
      exact hfb (by rw [← p5]; exact haa2)
  rcases runStages_cases hrs with ⟨heq2, hr0, hr1, ⟨e2v, hr2, hs2⟩, ⟨e3v, hr3, hs3⟩⟩ | hlt
  · -- no stage succeeded: the stage loop returned the state unchanged
    have heqs : enc1 = enc2 := heq2.symm
    subst heqs
    rcases hrest with ⟨hgate, hiter⟩ | ⟨hgate, hiter⟩
    · -- drain-gate not taken
      rcases hstrict with hst | hre
      · right
        refine ⟨_, _, hiter, ⟨?_, Or.inl hE1⟩, ?_⟩
        · intro hft
          obtain ⟨hfa, hfb⟩ := hflag1 hft
          exact ⟨hE1.1, hfa, hfb⟩
        · exact hst
      · exfalso
        obtain ⟨-, -, -, -, e5⟩ := hE1
        unfold pendingOK at e5
        rcases hb2 : enc1.is_ending with _ | _
        · rw [hb2] at e5
          simp only [Bool.false_eq_true, if_false] at e5
          obtain ⟨mm, nE2, hsh, -⟩ := e5
          rw [hre] at hsh
          simp at hsh
        · rw [hb2, hre] at hgate
          simp at hgate
    · -- drain-gate taken: flush check on the unchanged state
      rcases flushCheck_cases idealOracle r s.eof_was_sent_to_encoders enc1 with
        hd | ⟨hx, hfc⟩ | ⟨hfl1, -, -, hne, hfc⟩ | ⟨hfl0, -, -, hne, hfc⟩
      · subst hd
        left
        rw [(flush_drain idealOracle s.eof_was_sent_to_encoders enc1).1] at hiter
        simp only [if_true] at hiter
        exact ⟨_, _, hiter⟩
      · exfalso
        rcases hx with hx | hx
        · exact hx hr0
        · exact hx hr1
      · exfalso
        rcases he2 : e2v with _ | _
        · rw [he2] at hs2
          obtain ⟨hva1, hvs1⟩ := step2_again_ideal hs2
          rw [(hflag1 hfl1).1 hva1] at hvs1
          cases hvs1
        · rcases he3 : e3v with _ | _
          · rw [he3] at hs3
            obtain ⟨haa1, has1⟩ := step3_again_ideal hs3
            rw [(hflag1 hfl1).2 haa1] at has1
            cases has1
          · exact hne ⟨by rw [hr2, he2], by rw [hr3, he3]⟩
      · -- flag unset and not fully drained: one end-of-stream round runs
        have hiter2 : iterate idealOracle s = IterResult.cont
            ⟨(send_eof_to_encoders idealOracle enc1).1,
             s.ops_bound || s.enc.ffmpeg_context.isSome,
             (send_eof_to_encoders idealOracle enc1).2.1⟩
            ⟨enc1.is_ending, enc1.receiver.isEmpty, r, false,
             s.enc.ffmpeg_context.isNone && enc1.ffmpeg_context.isSome,
             (send_eof_to_encoders idealOracle enc1).2.2⟩ := by
          rw [hiter, hfc]
          rfl
        obtain ⟨q1, q2, q3, q4, q5, -, -, -, -, -, -, -, -, q14, q15, -, -, -, -⟩ :=
          send_eof_spec idealOracle enc1
        have hsucc : (send_eof_to_encoders idealOracle enc1).2.1 = true := q15 rfl rfl
        right
        refine ⟨_, _, hiter2, ⟨?_, Or.inl (EncOK_send idealOracle hE1)⟩, ?_⟩
        · rintro -
          refine ⟨by rw [q3]; exact hE1.1, ?_, ?_⟩
          · intro hva3
            exact ((q14 hsucc).1 (by rw [← q4]; exact hva3))
          · intro haa3
            exact ((q14 hsucc).2 (by rw [← q5]; exact haa3))
        · show 4 * (send_eof_to_encoders idealOracle enc1).1.receiver.length +
            ctxLoad (send_eof_to_encoders idealOracle enc1).1.ffmpeg_context <
            loopMeasure s
          rw [q1]
          have hdec : ctxLoad (send_eof_to_encoders idealOracle enc1).1.ffmpeg_context <
              ctxLoad enc1.ffmpeg_context := by
            rcases he2 : e2v with _ | _
            · rw [he2] at hs2
              obtain ⟨hva1, hvs1⟩ := step2_again_ideal hs2
              exact (send_measure idealOracle enc1).2.1 hsucc hva1 hvs1
            · rcases he3 : e3v with _ | _
              · rw [he3] at hs3
                obtain ⟨haa1, has1⟩ := step3_again_ideal hs3
                exact (send_measure idealOracle enc1).2.2 hsucc haa1 has1
              · exact absurd ⟨by rw [hr2, he2], by rw [hr3, he3]⟩ hne
          omega
  · -- some stage succeeded: the measure already dropped
    have hrcv2 : enc2.receiver = enc1.receiver := p1
    have hMlt : 4 * enc2.receiver.length + ctxLoad enc2.ffmpeg_context < loopMeasure s := by
      rw [hrcv2]
      omega
    rcases hrest with ⟨hgate, hiter⟩ | ⟨hgate, hiter⟩
    · right
      refine ⟨_, _, hiter, ⟨?_, Or.inl hE2⟩, hMlt⟩
      intro hft
      obtain ⟨hfa, hfb⟩ := hflag2 hft
      exact ⟨hE2.1, hfa, hfb⟩
    · rcases flushCheck_cases idealOracle r s.eof_was_sent_to_encoders enc2 with
        hd | ⟨hx, hfc⟩ | ⟨hfl1, -, -, hne, hfc⟩ | ⟨hfl0, -, -, hne, hfc⟩
      · subst hd
        left
        rw [(flush_drain idealOracle s.eof_was_sent_to_encoders enc2).1] at hiter
        simp only [if_true] at hiter
        exact ⟨_, _, hiter⟩
      · have hiter2 : iterate idealOracle s = IterResult.cont
            ⟨enc2, s.ops_bound || s.enc.ffmpeg_context.isSome, s.eof_was_sent_to_encoders⟩
            ⟨enc2.is_ending, enc2.receiver.isEmpty, r, false,
             s.enc.ffmpeg_context.isNone && enc1.ffmpeg_context.isSome, []⟩ := by
          rw [hiter, hfc]
          rfl
        right
        refine ⟨_, _, hiter2, ⟨?_, Or.inl hE2⟩, hMlt⟩
        intro hft
        obtain ⟨hfa, hfb⟩ := hflag2 hft
        exact ⟨hE2.1, hfa, hfb⟩
      · have hiter2 : iterate idealOracle s = IterResult.cont
            ⟨enc2, s.ops_bound || s.enc.ffmpeg_context.isSome, s.eof_was_sent_to_encoders⟩
            ⟨enc2.is_ending, enc2.receiver.isEmpty, r, false,
             s.enc.ffmpeg_context.isNone && enc1.ffmpeg_context.isSome, []⟩ := by
          rw [hiter, hfc]
          rfl
        right
        refine ⟨_, _, hiter2, ⟨?_, Or.inl hE2⟩, hMlt⟩
        intro hft
        obtain ⟨hfa, hfb⟩ := hflag2 hft
        exact ⟨hE2.1, hfa, hfb⟩
      · have hiter2 : iterate idealOracle s = IterResult.cont
            ⟨(send_eof_to_encoders idealOracle enc2).1,
             s.ops_bound || s.enc.ffmpeg_context.isSome,
             (send_eof_to_encoders idealOracle enc2).2.1⟩
            ⟨enc2.is_ending, enc2.receiver.isEmpty, r, false,
             s.enc.ffmpeg_context.isNone && enc1.ffmpeg_context.isSome,
             (send_eof_to_encoders idealOracle enc2).2.2⟩ := by
          rw [hiter, hfc]
          rfl
        obtain ⟨q1, q2, q3, q4, q5, -, -, -, -, -, -, -, -, q14, q15, -, -, -, -⟩ :=
          send_eof_spec idealOracle enc2
        have hsucc : (send_eof_to_encoders idealOracle enc2).2.1 = true := q15 rfl rfl
        right
        refine ⟨_, _, hiter2, ⟨?_, Or.inl (EncOK_send idealOracle hE2)⟩, ?_⟩
        · rintro -
          refine ⟨by rw [q3]; exact hE2.1, ?_, ?_⟩
          · intro hva3
            exact ((q14 hsucc).1 (by rw [← q4]; exact hva3))
          · intro haa3
            exact ((q14 hsucc).2 (by rw [← q5]; exact haa3))
        · show 4 * (send_eof_to_encoders idealOracle enc2).1.receiver.length +
            ctxLoad (send_eof_to_encoders idealOracle enc2).1.ffmpeg_context <
            loopMeasure s
          rw [q1]
          have hle := (send_measure idealOracle enc2).1
          omega

/-- One ideal-oracle iteration from a state satisfying the run invariant
either exits the worker loop or continues with the invariant preserved and
the termination measure strictly decreased; in particular it never
aborts. -/
theorem ideal_step {args : OutputArgs} {s : LoopState} (hI : InvWF args s) :
    (∃ s' ev, iterate idealOracle s = IterResult.exit s' ev) ∨
    (∃ s' ev, iterate idealOracle s = IterResult.cont s' ev ∧ InvWF args s' ∧
      loopMeasure s' < loopMeasure s) := by
  obtain ⟨hflag, hphase⟩ := hI
  rcases iterate_decomp idealOracle s with habort | ⟨enc1, r, enc2, hrecv, hrs, hrest⟩
  · -- an invariant state never aborts
    exfalso
    rcases iterate_abort_inv habort with ⟨f, rest, hr, hhf⟩ | ⟨enc0, hok, hnone⟩
    · -- frame dispatch cannot hit the fatal arm
      rcases hphase with hE | ⟨hc, -, hend, -, m, n0, nE, hrecv2, hmedia⟩
      · have e1 := hE.1
        have e2 := hE.2.1
        have e5 := hE.2.2.2.2
        have hend : s.enc.is_ending = false := by
          rcases hb : s.enc.is_ending with _ | _
          · rfl
          · exfalso
            unfold pendingOK at e5
            rw [hb] at e5
            simp at e5
            rw [hr] at e5
            cases e5
        unfold pendingOK at e5
        rw [hend] at e5
        simp only [Bool.false_eq_true, if_false] at e5
        obtain ⟨mm, nE2, hsh, hmed⟩ := e5
        rcases hcs : s.enc.ffmpeg_context with _ | ctx
        · rw [hcs] at e1; cases e1
        rcases mm with _ | ⟨g, mm'⟩
        · rw [hr] at hsh
          simp only [List.nil_append] at hsh
          injection hsh with hf1 hr1
          subst hf1
          subst hr1
          rw [handle_end_some (show ({ s.enc with receiver := ([] : List Frame) } :
            CollectedAVFfmpegEncoder).ffmpeg_context = some ctx from hcs)] at hhf
          cases hhf
        · rw [List.cons_append] at hsh
          rw [hr] at hsh
          injection hsh with hf1 hr1
          subst hf1
          subst hr1
          have hmg : mediaMatches args f = true := hmed f (List.mem_cons_self f mm')
          obtain ⟨fd, fn⟩ := f
          cases fd
          case video vp =>
            have hhv : args.hasVideo = true := hmg
            have hva : vActE s.enc = true := by rw [e2]; exact hhv
            obtain ⟨ctx2, vc, hc2, hv2⟩ := vActE_some hva
            rw [handle_video (show ({ s.enc with
              receiver := mm' ++ [⟨FrameData.endStream, nE2⟩] } :
              CollectedAVFfmpegEncoder).ffmpeg_context = some ctx2 from hc2) hv2] at hhf
            cases hhf
          case audio ap =>
            have hha : args.hasAudio = true := hmg
            have haa : aActE s.enc = true := by rw [hE.2.2.1]; exact hha
            obtain ⟨ctx2, ac, hc2, ha2⟩ := aActE_some haa
            rw [handle_audio (show ({ s.enc with
              receiver := mm' ++ [⟨FrameData.endStream, nE2⟩] } :
              CollectedAVFfmpegEncoder).ffmpeg_context = some ctx2 from hc2) ha2] at hhf
            cases hhf
          case configure args2 => simp [mediaMatches] at hmg
          case endStream => simp [mediaMatches] at hmg
      · rw [hrecv2] at hr
        injection hr with hf1 hr1
        subst hf1
        subst hr1
        rw [handle_configure_none (show ({ s.enc with
          receiver := m ++ [⟨FrameData.endStream, nE⟩] } :
          CollectedAVFfmpegEncoder).ffmpeg_context = none from hc)] at hhf
        cases hhf
    · -- the stage table never evaluates to a fatal error
      have hstr : vActE enc0 = true → streamsE enc0 ≠ [] := by
        rcases hok with ⟨hre, henc⟩ | ⟨f, rest, hre, hhf⟩
        · subst henc
          rcases hphase with hE | ⟨hc, -⟩
          · intro hva
            exact hE.2.2.2.1 (by rw [← hE.2.1]; exact hva)
          · intro hva
            rw [show vActE s.enc = false from by simp [vActE, hc]] at hva
            cases hva
        · rcases hphase with hE | ⟨hc, -, -, -, m, n0, nE, hrecv2, -⟩
          · obtain ⟨-, -, -, -, -, hpr⟩ := handle_frame_inv hhf
            have hbase : ({ s.enc with receiver := rest } :
                CollectedAVFfmpegEncoder).ffmpeg_context.isSome = true := hE.1
            obtain ⟨hva', -, hstr'⟩ := hpr hbase
            intro hva
            rw [hstr']
            show streamsE s.enc ≠ []
            apply hE.2.2.2.1
            rw [← hE.2.1]
            show vActE s.enc = true
            rw [← show vActE ({ s.enc with receiver := rest } :
              CollectedAVFfmpegEncoder) = vActE s.enc from rfl, ← hva']
            exact hva
          · rw [hrecv2] at hre
            injection hre with hf1 hr1
            subst hf1
            subst hr1
            rw [handle_configure_none (show ({ s.enc with
              receiver := m ++ [⟨FrameData.endStream, nE⟩] } :
              CollectedAVFfmpegEncoder).ffmpeg_context = none from hc)] at hhf
            injection hhf with hR
            intro hva
            have hva2 : (FfmpegContext.new args).video.isSome = true := by
              rw [show vActE enc0 = (FfmpegContext.new args).video.isSome from by
                rw [← hR]; rfl] at hva
              exact hva
            have hsv : args.hasVideo = true := by
              rw [← (new_spec args).1]
              exact hva2
            rw [show streamsE enc0 = (FfmpegContext.new args).octx.streams from by
              rw [← hR]; rfl]
            exact (new_spec args).2.2.2.2.2.2 hsv
      exact runStages_safe hstr hnone
  · -- the iteration proper
    rcases hphase with hE | ⟨hc, hops, hend, hfl, m, n0, nE, hrecv2, hmedia⟩
    · -- a session exists
      rcases hrecv with ⟨hre, henc1⟩ | ⟨f, rest, hre, hhf⟩
      · -- nothing dequeued
        subst henc1
        refine ideal_step_post hE ?_ hrs hrest (Nat.le_refl _) (Or.inr hre)
        intro hft
        obtain ⟨-, hfa, hfb⟩ := hflag hft
        exact ⟨hfa, hfb⟩
      · -- one frame dequeued and dispatched
        have e1 := hE.1
        have e2 := hE.2.1
        have e3 := hE.2.2.1
        have e4 := hE.2.2.2.1
        have e5 := hE.2.2.2.2
        have hend : s.enc.is_ending = false := by
          rcases hb : s.enc.is_ending with _ | _
          · rfl
          · exfalso
            unfold pendingOK at e5
            rw [hb] at e5
            simp at e5
            rw [hre] at e5
            cases e5
        unfold pendingOK at e5
        rw [hend] at e5
        simp only [Bool.false_eq_true, if_false] at e5
        obtain ⟨mm, nE2, hsh, hmed⟩ := e5
        rcases hcs : s.enc.ffmpeg_context with _ | ctx
        · rw [hcs] at e1; cases e1
        rcases mm with _ | ⟨g, mm'⟩
        · -- the dequeued frame is End; afterwards the queue is empty
          rw [hre] at hsh
          simp only [List.nil_append] at hsh
          injection hsh with hf1 hr1
          subst hf1
          subst hr1
          rw [handle_end_some (show ({ s.enc with receiver := ([] : List Frame) } :
            CollectedAVFfmpegEncoder).ffmpeg_context = some ctx from hcs)] at hhf
          injection hhf with hR
          have hrecv1 : enc1.receiver = [] := by rw [← hR]
          have hend1 : enc1.is_ending = true := by rw [← hR]
          have hsome1 : enc1.ffmpeg_context.isSome = true := by rw [← hR]; exact e1
          have hvact1 : vActE enc1 = vActE s.enc := by rw [← hR]; rfl
          have haact1 : aActE enc1 = aActE s.enc := by rw [← hR]; rfl
          have hvsig1 : vSigE enc1 = vSigE s.enc := by rw [← hR]; rfl
          have hasig1 : aSigE enc1 = aSigE s.enc := by rw [← hR]; rfl
          have hstr1 : streamsE enc1 = streamsE s.enc := by rw [← hR]; rfl
          have hload1 : ctxLoad enc1.ffmpeg_context = ctxLoad s.enc.ffmpeg_context := by
            rw [← hR]
          have hE1 : EncOK args enc1 := by
            refine ⟨hsome1, by rw [hvact1]; exact e2, by rw [haact1]; exact e3, ?_, ?_⟩
            · intro hv
              rw [hstr1]
              exact e4 hv
            · unfold pendingOK
              rw [hend1]
              simp only [eq_self_iff_true, if_true]
              exact hrecv1
          refine ideal_step_post hE1 ?_ hrs hrest ?_ ?_
          · intro hft
            obtain ⟨-, hfa, hfb⟩ := hflag hft
            refine ⟨fun hv => ?_, fun ha2 => ?_⟩
            · rw [hvsig1]
              exact hfa (by rw [← hvact1]; exact hv)
            · rw [hasig1]
              exact hfb (by rw [← haact1]; exact ha2)
          · rw [hrecv1, hload1]
            unfold loopMeasure
            rw [hre]
            simp only [List.length_cons, List.length_nil]
            omega
          · left
            rw [hrecv1, hload1]
            unfold loopMeasure
            rw [hre]
            simp only [List.length_cons, List.length_nil]
            omega
        · -- the dequeued frame is a media frame matching the session
          rw [List.cons_append] at hsh
          rw [hre] at hsh
          injection hsh with hf1 hr1
          subst hf1
          subst hr1
          have hmg : mediaMatches args f = true := hmed f (List.mem_cons_self f mm')
          have hhm := handle_measure hhf
          have hload : ctxLoad enc1.ffmpeg_context ≤ ctxLoad s.enc.ffmpeg_context + 3 :=
            hhm.2
          have hrecv1 : enc1.receiver = mm' ++ [⟨FrameData.endStream, nE2⟩] := hhm.1
          obtain ⟨fd, fn⟩ := f
          cases fd
          case video vp =>
            have hhv : args.hasVideo = true := hmg
            have hva : vActE s.enc = true := by rw [e2]; exact hhv
            obtain ⟨ctx2, vc, hc2, hv2⟩ := vActE_some hva
            rw [handle_video (show ({ s.enc with
              receiver := mm' ++ [⟨FrameData.endStream, nE2⟩] } :
              CollectedAVFfmpegEncoder).ffmpeg_context = some ctx2 from hc2) hv2] at hhf
            injection hhf with hR
            have hend1 : enc1.is_ending = false := by rw [← hR]; exact hend
            have hsome1 : enc1.ffmpeg_context.isSome = true := by rw [← hR]; rfl
            have hvact1 : vActE enc1 = true := by rw [← hR]; rfl
            have haact1 : aActE enc1 = aActE s.enc := by
              rw [← hR]
              simp [aActE, hc2]
            have hvsig1 : vSigE enc1 = vSigE s.enc := by
              rw [← hR]
              simp [vSigE, hc2, hv2]
            have hasig1 : aSigE enc1 = aSigE s.enc := by
              rw [← hR]
              simp [aSigE, hc2]
            have hstr1 : streamsE enc1 = streamsE s.enc := by
              rw [← hR]
              simp [streamsE, hc2]
            have hE1 : EncOK args enc1 := by
              refine ⟨hsome1, by rw [hvact1]; exact hhv.symm, by rw [haact1]; exact e3,
                ?_, ?_⟩
              · intro hv
                rw [hstr1]
                exact e4 hv
              · unfold pendingOK
                rw [hend1]
                simp only [Bool.false_eq_true, if_false]
                exact ⟨mm', nE2, hrecv1,
                  fun f' hf' => hmed f' (List.mem_cons_of_mem _ hf')⟩
            refine ideal_step_post hE1 ?_ hrs hrest ?_ ?_
            · intro hft
              obtain ⟨-, hfa, hfb⟩ := hflag hft
              refine ⟨fun hv => ?_, fun ha2 => ?_⟩
              · rw [hvsig1]
                exact hfa hva
              · rw [hasig1]
                exact hfb (by rw [← haact1]; exact ha2)
            · rw [hrecv1]
              unfold loopMeasure
              rw [hre]
              simp only [List.length_cons, List.length_append, List.length_nil]
              omega
            · left
              rw [hrecv1]
              unfold loopMeasure
              rw [hre]
              simp only [List.length_cons, List.length_append, List.length_nil]
              omega
          case audio ap =>
            have hha : args.hasAudio = true := hmg
            have haa : aActE s.enc = true := by rw [e3]; exact hha
            obtain ⟨ctx2, ac, hc2, ha2⟩ := aActE_some haa
            rw [handle_audio (show ({ s.enc with
              receiver := mm' ++ [⟨FrameData.endStream, nE2⟩] } :
              CollectedAVFfmpegEncoder).ffmpeg_context = some ctx2 from hc2) ha2] at hhf
            injection hhf with hR
            have hend1 : enc1.is_ending = false := by rw [← hR]; exact hend
            have hsome1 : enc1.ffmpeg_context.isSome = true := by rw [← hR]; rfl
            have haact1 : aActE enc1 = true := by rw [← hR]; rfl
            have hvact1 : vActE enc1 = vActE s.enc := by
              rw [← hR]
              simp [vActE, hc2]
            have hvsig1 : vSigE enc1 = vSigE s.enc := by
              rw [← hR]
              simp [vSigE, hc2]
            have hasig1 : aSigE enc1 = aSigE s.enc := by
              rw [← hR]
              simp [aSigE, hc2, ha2]
            have hstr1 : streamsE enc1 = streamsE s.enc := by
              rw [← hR]
              simp [streamsE, hc2]
            have hE1 : EncOK args enc1 := by
              refine ⟨hsome1, by rw [hvact1]; exact e2, by rw [haact1]; exact hha.symm,
                ?_, ?_⟩
              · intro hv
                rw [hstr1]
                exact e4 hv
              · unfold pendingOK
                rw [hend1]
                simp only [Bool.false_eq_true, if_false]
                exact ⟨mm', nE2, hrecv1,
                  fun f' hf' => hmed f' (List.mem_cons_of_mem _ hf')⟩
            refine ideal_step_post hE1 ?_ hrs hrest ?_ ?_
            · intro hft
              obtain ⟨-, hfa, hfb⟩ := hflag hft
              refine ⟨fun hv => ?_, fun ha3 => ?_⟩
              · rw [hvsig1]
                exact hfa (by rw [← hvact1]; exact hv)
              · rw [hasig1]
                exact hfb haa
            · rw [hrecv1]
              unfold loopMeasure
              rw [hre]
              simp only [List.length_cons, List.length_append, List.length_nil]
              omega
            · left
              rw [hrecv1]
              unfold loopMeasure
              rw [hre]
              simp only [List.length_cons, List.length_append, List.length_nil]
              omega
          case configure args2 => simp [mediaMatches] at hmg
          case endStream => simp [mediaMatches] at hmg
    · -- nothing configured yet: this iteration consumes the Configure frame
      rcases hrecv with ⟨hre, -⟩ | ⟨f, rest, hre, hhf⟩
      · rw [hrecv2] at hre
        cases hre
      · rw [hrecv2] at hre
        injection hre with hf1 hr1
        subst hf1
        subst hr1
        rw [handle_configure_none (show ({ s.enc with
          receiver := m ++ [⟨FrameData.endStream, nE⟩] } :
          CollectedAVFfmpegEncoder).ffmpeg_context = none from hc)] at hhf
        injection hhf with hR
        have hrecv1 : enc1.receiver = m ++ [⟨FrameData.endStream, nE⟩] := by rw [← hR]
        have hend1 : enc1.is_ending = false := by rw [← hR]; exact hend
        have hc1 : enc1.ffmpeg_context = some (FfmpegContext.new args) := by rw [← hR]
        have hbound : (s.ops_bound || s.enc.ffmpeg_context.isSome) = false := by
          rw [hops, hc]
          rfl
        rw [hbound, runStages_unbound] at hrs
        cases hrs
        rcases hrest with ⟨hgate, hiter⟩ | ⟨hgate, -⟩
        · right
          refine ⟨_, _, hiter, ⟨?_, Or.inl ?_⟩, ?_⟩
          · intro hft
            have hft2 : s.eof_was_sent_to_encoders = true := hft
            rw [hfl] at hft2
            cases hft2
          · refine ⟨by simp [hc1], ?_, ?_, ?_, ?_⟩
            · have hx : vActE enc1 = (FfmpegContext.new args).video.isSome := by
                simp [vActE, hc1]
              rw [hx]
              exact (new_spec args).1
            · have hx : aActE enc1 = (FfmpegContext.new args).audio.isSome := by
                simp [aActE, hc1]
              rw [hx]
              exact (new_spec args).2.1
            · intro hv
              have hx : streamsE enc1 = (FfmpegContext.new args).octx.streams := by
                simp [streamsE, hc1]
              rw [hx]
              exact (new_spec args).2.2.2.2.2.2 hv
            · unfold pendingOK
              rw [hend1]
              simp only [Bool.false_eq_true, if_false]
              exact ⟨m, nE, hrecv1, hmedia⟩
          · show 4 * enc1.receiver.length + ctxLoad enc1.ffmpeg_context < loopMeasure s
            rw [hrecv1, hc1]
            unfold loopMeasure
            rw [hrecv2, hc]
            have h2 := ctxLoad_new args
            have h3 : ctxLoad none = 0 := rfl
            simp only [List.length_cons, List.length_append, List.length_nil]
            omega
        · exfalso
          simp only [Bool.and_eq_true] at hgate
          rw [hend1] at hgate
          simp at hgate

/-- Under the ideal oracle, every invariant state reaches a finished run
within some fuel bound. -/
theorem ideal_terminates (args : OutputArgs) :
    ∀ (n : Nat) (s : LoopState) (k : Nat), loopMeasure s ≤ n → InvWF args s →
    ∃ (fuel : Nat) (sf : LoopState) (evs : List IterEvents),
      runFrom idealRun k fuel s = (RunResult.finished sf, evs) := by
  intro n
  induction n with
  | zero =>
    intro s k hm hI
    rcases ideal_step hI with ⟨s', ev, hex⟩ | ⟨s', ev, hco, -, hlt⟩
    · exact ⟨1, s', [ev], by simp [runFrom, idealRun, hex]⟩
    · omega
  | succ n ih =>
    intro s k hm hI
    rcases ideal_step hI with ⟨s', ev, hex⟩ | ⟨s', ev, hco, hI2, hlt⟩
    · exact ⟨1, s', [ev], by simp [runFrom, idealRun, hex]⟩
    · obtain ⟨fuel, sf, evs, hrun⟩ := ih s' (k + 1) (by omega) hI2
      refine ⟨fuel + 1, sf, ev :: evs, ?_⟩
      simp [runFrom, idealRun, hco, hrun]

/-- C1: on every well-formed input `Configure → media* → End` whose media
frames match the configured streams, the worker loop (run with an
always-ready backend) terminates in a finished state having written the
container trailer exactly once, with exactly one trailer-writing
iteration; under any oracle, a trailer is written only in an iteration
that is draining on an empty input queue with recorded stage outcomes
`(WouldBlock, WouldBlock, Eof, Eof)`, and that iteration exits the loop
(a continuing iteration never writes the trailer). -/
theorem c1_trailer_once :
    (∀ (args : OutputArgs) (media : List Frame) (n0 nE : Nat),
      (∀ f ∈ media, mediaMatches args f = true) →
      ∃ (fuel : Nat) (sf : LoopState) (evs : List IterEvents),
        runFrom idealRun 0 fuel (initLoopState (mkInput args media n0 nE)) =
          (RunResult.finished sf, evs) ∧
        trailerCount sf = 1 ∧ trailerEvents evs = 1) ∧
    (∀ (o : IterOracle) (s s' : LoopState) (ev : IterEvents),
      (iterate o s = IterResult.cont s' ev ∨ iterate o s = IterResult.exit s' ev) →
      ev.trailer_written = true →
      ev.draining = true ∧ ev.queue_empty = true ∧ ev.results = drainPattern) ∧
    (∀ (o : IterOracle) (s s' : LoopState) (ev : IterEvents),
      iterate o s = IterResult.cont s' ev → ev.trailer_written = false) := by
  refine ⟨?_, ?_, ?_⟩
  · intro args media n0 nE hmedia
    have hI : InvWF args (initLoopState (mkInput args media n0 nE)) := by
      refine ⟨?_, Or.inr ⟨rfl, rfl, rfl, rfl, media, n0, nE, rfl, hmedia⟩⟩
      intro hft
      have hfx : (false : Bool) = true := hft
      cases hfx
    obtain ⟨fuel, sf, evs, hrun⟩ :=
      ideal_terminates args (loopMeasure (initLoopState (mkInput args media n0 nE)))
        (initLoopState (mkInput args media n0 nE)) 0 (Nat.le_refl _) hI
    have hJ : Jinv (initLoopState (mkInput args media n0 nE)) := by
      refine ⟨?_, ?_, ?_⟩ <;> intro hft <;>
        (have hfx : (false : Bool) = true := hft; cases hfx)
    obtain ⟨ht1, ht2⟩ := runFrom_trailer idealRun fuel 0 _ sf evs hrun hJ
    refine ⟨fuel, sf, evs, hrun, ?_, ht1⟩
    have h0 : trailersE (initLoopState (mkInput args media n0 nE)).enc = 0 := rfl
    show trailersE sf.enc = 1
    omega
  · intro o s s' ev h htw
    rcases h with hco | hex
    · rw [iterate_cont_trailer hco] at htw
      cases htw
    · obtain ⟨h1, h2, h3, -⟩ := iterate_exit_char hex
      exact ⟨h2, h3, h1⟩
  · intro o s s' ev h
    exact iterate_cont_trailer h

theorem c1_witness :
    (∀ f ∈ [(⟨FrameData.video ⟨[], 4, 2, 4⟩, 0⟩ : Frame)],
      mediaMatches (OutputArgs.video exVideoArgs) f = true) ∧
    (∃ (fuel : Nat) (sf : LoopState) (evs : List IterEvents),
      runFrom idealRun 0 fuel (initLoopState
        (mkInput (OutputArgs.video exVideoArgs)
          [⟨FrameData.video ⟨[], 4, 2, 4⟩, 0⟩] 0 1)) =
        (RunResult.finished sf, evs) ∧
      trailerCount sf = 1 ∧ trailerEvents evs = 1) :=
  ⟨by decide,
   c1_trailer_once.1 (OutputArgs.video exVideoArgs)
     [⟨FrameData.video ⟨[], 4, 2, 4⟩, 0⟩] 0 1 (by decide)⟩
